import Mathlib

/-!
Shallow embedding of the tabular health-metric extraction engine in
`src/workers/excelParser.js` (mmdhealth/mmdcare), together with theorems
settling the specification claims about it.

Modelling conventions:
* A spreadsheet cell is `Cell`: the variants produced by the workbook loader
  (`null`, number, string, `Date`, boolean).  JS numbers are modelled as `ℚ`.
* Timestamps and `Date` values are modelled as milliseconds since the Unix
  epoch (`Int`), assuming a UTC runtime; ISO strings round-trip through
  `new Date` as the identity, so an ISO timestamp is represented by its
  millisecond value directly.
* JS objects used as string-keyed maps (`metrics.latest`, `metrics.trends`,
  `dynamicData`) are association lists in property-insertion order, with
  `objGet` / `objSet` modelling property read / write.
* Host / library behaviour that the engine calls into (the `xlsx` workbook
  loader's `SSF.parse_date_code`, `new Date(string)`, `Number(string)`,
  `String(value)`, `toLocaleString("sv-SE")`) is modelled by executable
  functions covering the input shapes this program feeds them; the doc
  comment of each such function states its scope.
-/

namespace ExcelParser

/-- One spreadsheet cell as delivered by `sheet_to_json(..., {header: 1, defval: null})`:
`null`, a number, a string, a `Date`, or a boolean. -/
inductive Cell where
  | cnull : Cell
  | cnum : ℚ → Cell
  | cstr : String → Cell
  | cdate : Int → Cell
  | cbool : Bool → Cell
deriving DecidableEq, Repr

/-- A sheet row (`row` in the source): an array of cells. -/
abbrev Row := List Cell

/-- A sheet: the array of rows produced by `sheet_to_json`. -/
abbrev Sheet := List Row

/-- `row[i]`: out-of-bounds access yields `undefined`, which every consumer in
the source treats exactly like `null`, so both are modelled as `Cell.cnull`. -/
def cellAt (row : Row) (i : Nat) : Cell := (row.get? i).getD Cell.cnull

/-- The check `value !== null && value !== ""` used when filtering data rows,
sampling cells and guarding raw-collection updates. -/
def cellNonEmptyB : Cell → Bool
  | Cell.cnull => false
  | Cell.cstr s => decide (s ≠ "")
  | _ => true

/-! ### String utilities (normalizeText and friends) -/

/-- The whitespace characters relevant to `String.prototype.trim` / `\s` for
the inputs this engine sees. -/
def isWsCh (c : Char) : Bool := c = ' ' ∨ c = '\t' ∨ c = '\n' ∨ c = '\r'

/-- `String.prototype.trim` on a character list. -/
def trimChs (l : List Char) : List Char :=
  ((l.dropWhile isWsCh).reverse.dropWhile isWsCh).reverse

/-- `String.prototype.trim`. -/
def trimStr (s : String) : String := String.mk (trimChs s.data)

/-- `String.prototype.toLowerCase` for the ASCII and Latin-1 letters occurring
in headers and in the parameter registry's matcher keywords. -/
def jsLowerChar (c : Char) : Char :=
  if 'A' ≤ c ∧ c ≤ 'Z' then Char.ofNat (c.toNat + 32)
  else if 0xC0 ≤ c.toNat ∧ c.toNat ≤ 0xDE ∧ c.toNat ≠ 0xD7 then Char.ofNat (c.toNat + 32)
  else c

/-- The base letter a precomposed Latin-1 lowercase letter decomposes to under
NFD; letters without a decomposition are returned unchanged. -/
def latinBase (c : Char) : Char :=
  let n := c.toNat
  if 0xE0 ≤ n ∧ n ≤ 0xE5 then 'a'
  else if n = 0xE7 then 'c'
  else if 0xE8 ≤ n ∧ n ≤ 0xEB then 'e'
  else if 0xEC ≤ n ∧ n ≤ 0xEF then 'i'
  else if n = 0xF1 then 'n'
  else if 0xF2 ≤ n ∧ n ≤ 0xF6 then 'o'
  else if 0xF9 ≤ n ∧ n ≤ 0xFC then 'u'
  else if n = 0xFD ∨ n = 0xFF then 'y'
  else c

/-- One character after `normalize("NFD").replace(/[̀-ͯ]/g, "")`:
combining diacritical marks are deleted, precomposed letters keep only their
base letter. -/
def nfdStrip (c : Char) : Option Char :=
  if 0x300 ≤ c.toNat ∧ c.toNat ≤ 0x36F then none
  else some (latinBase c)

/-- `normalizeText` from the source: lower-case, Unicode-decompose, strip
combining marks, trim; empty and missing values normalize to `""`. -/
def normalizeText (value : String) : String :=
  if value = "" then ""
  else trimStr (String.mk ((value.data.map jsLowerChar).filterMap nfdStrip))

/-- Whether `sub` is a prefix of `l` (character lists). -/
def chPre : List Char → List Char → Bool
  | [], _ => true
  | _ :: _, [] => false
  | a :: as, b :: bs => a = b && chPre as bs

/-- Helper for `strHas`: scan every suffix of the haystack. -/
def chHasAux (sub : List Char) : List Char → Bool
  | [] => chPre sub []
  | c :: rest => chPre sub (c :: rest) || chHasAux sub rest

/-- `String.prototype.includes`. -/
def strHas (s sub : String) : Bool := chHasAux sub.data s.data

/-! ### Numeric, date and time parsing -/

def isDigitCh (c : Char) : Bool := '0' ≤ c ∧ c ≤ '9'

/-- `parseInt` on a digit string (also the digit-reading part of `Number`). -/
def digitsToNat (l : List Char) : Nat :=
  l.foldl (fun acc c => acc * 10 + (c.toNat - 48)) 0

/-- Models the host `Number(string)` coercion on the plain decimal numerals
this engine feeds it (optional sign, digits, optional fractional part; the
empty string coerces to `0`).  Exponent, hex and `Infinity` forms are outside
the modelled input space and map to `none`. -/
def parseUnsignedDecimal (l : List Char) : Option ℚ :=
  let intPart := l.takeWhile isDigitCh
  let rest := l.dropWhile isDigitCh
  match rest with
  | [] => if intPart = [] then none else some (digitsToNat intPart : ℚ)
  | '.' :: frac =>
    if frac.all isDigitCh ∧ (intPart ≠ [] ∨ frac ≠ []) then
      some ((digitsToNat intPart : ℚ) + (digitsToNat frac : ℚ) / ((10 : ℚ) ^ frac.length))
    else none
  | _ => none

def jsNumber (s : String) : Option ℚ :=
  if s = "" then some 0
  else
    match s.data with
    | '-' :: rest => (parseUnsignedDecimal rest).map (fun q => -q)
    | '+' :: rest => parseUnsignedDecimal rest
    | l => parseUnsignedDecimal l

/-- `parseNumber` from the source: native numbers pass through, strings are
trimmed, commas become decimal points, whitespace is stripped, then the value
is numerically coerced; everything else is `null`. -/
def parseNumber : Cell → Option ℚ
  | Cell.cnum q => some q
  | Cell.cnull => none
  | Cell.cstr s =>
    let trimmed := trimStr s
    if trimmed = "" then none
    else
      jsNumber (String.mk ((trimmed.data.map (fun c => if c = ',' then '.' else c)).filter
        (fun c => ¬ isWsCh c)))
  | _ => none

/-- Read exactly `n` digits from the front of `l` (one greedy alternative of a
`\d{2,3}` regex group). -/
def bpGroup (l : List Char) (n : Nat) : Option (Nat × List Char) :=
  let pre := l.take n
  if pre.length = n ∧ pre.all isDigitCh then some (digitsToNat pre, l.drop n) else none

/-- Try to match `(\d{n1})[\/\-](\d{2,3})` at the current position. -/
def bpTry (l : List Char) (n1 : Nat) : Option (Nat × Nat) :=
  match bpGroup l n1 with
  | none => none
  | some (g1, rest) =>
    match rest with
    | [] => none
    | c :: rest2 =>
      if c = '/' ∨ c = '-' then
        match bpGroup rest2 3 with
        | some (g2, _) => some (g1, g2)
        | none =>
          match bpGroup rest2 2 with
          | some (g2, _) => some (g1, g2)
          | none => none
      else none

/-- Match `(\d{2,3})[\/\-](\d{2,3})` at the current position, with the greedy
(3-digit-first) backtracking order of the regex engine. -/
def bpMatchAt (l : List Char) : Option (Nat × Nat) :=
  match bpTry l 3 with
  | some r => some r
  | none => bpTry l 2

/-- Leftmost match of `(\d{2,3})[\/\-](\d{2,3})` anywhere in the string. -/
def bpScan : List Char → Option (Nat × Nat)
  | [] => none
  | c :: rest =>
    match bpMatchAt (c :: rest) with
    | some r => some r
    | none => bpScan rest

/-- `parseBloodPressureCompound`: strings only; whitespace is removed, then
the first `NN[N]/NN[N]` or `NN[N]-NN[N]` group pair is read with `parseInt`. -/
def parseBloodPressureCompound : Cell → Option (Nat × Nat)
  | Cell.cstr value => bpScan (value.data.filter (fun c => ¬ isWsCh c))
  | _ => none

def isLeapYear (y : Int) : Bool := (y % 4 = 0 ∧ y % 100 ≠ 0) ∨ y % 400 = 0

def daysInMonth (y : Int) (m : Nat) : Nat :=
  if m = 1 ∨ m = 3 ∨ m = 5 ∨ m = 7 ∨ m = 8 ∨ m = 10 ∨ m = 12 then 31
  else if m = 4 ∨ m = 6 ∨ m = 9 ∨ m = 11 then 30
  else if isLeapYear y then 29 else 28

/-- Days since 1970-01-01 of the civil date `y-m-d` (proleptic Gregorian). -/
def daysFromCivil (y : Int) (m d : Nat) : Int :=
  let y2 := if m ≤ 2 then y - 1 else y
  let era := Int.fdiv y2 400
  let yoe := (y2 - era * 400).toNat
  let mp := if m > 2 then m - 3 else m + 9
  let doy := (153 * mp + 2) / 5 + d - 1
  let doe := yoe * 365 + yoe / 4 - yoe / 100 + doy
  era * 146097 + (doe : Int) - 719468

/-- Civil date of a day count since 1970-01-01. -/
def civilFromDays (z0 : Int) : Int × Nat × Nat :=
  let z := z0 + 719468
  let era := Int.fdiv z 146097
  let doe := (z - era * 146097).toNat
  let yoe := (doe - doe / 1460 + doe / 36524 - doe / 146096) / 365
  let y := (yoe : Int) + era * 400
  let doy := doe - (365 * yoe + yoe / 4 - yoe / 100)
  let mp := (5 * doy + 2) / 153
  let d := doy - (153 * mp + 2) / 5 + 1
  let m := if mp < 10 then mp + 3 else mp - 9
  (if m ≤ 2 then y + 1 else y, m, d)

/-- Split an exact `\d{4}-\d{2}-\d{2}` string into year, month, day. -/
def isoSplit (l : List Char) : Option (Int × Nat × Nat) :=
  match l with
  | [y1, y2, y3, y4, '-', m1, m2, '-', d1, d2] =>
    if [y1, y2, y3, y4, m1, m2, d1, d2].all isDigitCh then
      some ((digitsToNat [y1, y2, y3, y4] : Int), digitsToNat [m1, m2], digitsToNat [d1, d2])
    else none
  | _ => none

/-- Models the host `new Date(string)` constructor on the ISO calendar-date
strings (`YYYY-MM-DD`, parsed as UTC midnight) that this engine's
normalization produces; out-of-range components and every other string form
yield an invalid date, i.e. `none`. -/
def jsDateParse (s : String) : Option Int :=
  match isoSplit s.data with
  | some (y, m, d) =>
    if 1 ≤ m ∧ m ≤ 12 ∧ 1 ≤ d ∧ d ≤ daysInMonth y m then
      some (daysFromCivil y m d * 86400000)
    else none
  | none => none

def isSepDMY (c : Char) : Bool := c = '.' ∨ c = '-' ∨ c = '/'

/-- The anchored D/M/Y regex from `parseDateValue` (one or two day digits, a
dot, dash or slash separator, one or two month digits, another separator, two
to four year digits, end of string), returning the three digit groups. -/
def dmySplit (l : List Char) : Option (List Char × List Char × List Char) :=
  let d := l.takeWhile isDigitCh
  let r1 := l.dropWhile isDigitCh
  if d.length < 1 ∨ 2 < d.length then none
  else
    match r1 with
    | [] => none
    | s1 :: r2 =>
      if isSepDMY s1 then
        let m := r2.takeWhile isDigitCh
        let r3 := r2.dropWhile isDigitCh
        if m.length < 1 ∨ 2 < m.length then none
        else
          match r3 with
          | [] => none
          | s2 :: r4 =>
            if isSepDMY s2 then
              let y := r4.takeWhile isDigitCh
              let r5 := r4.dropWhile isDigitCh
              if 2 ≤ y.length ∧ y.length ≤ 4 ∧ r5 = [] then some (d, m, y) else none
            else none
      else none

/-- `padStart(2, "0")` on a digit group of length at most 2. -/
def pad2str (l : List Char) : String :=
  if l.length = 1 then "0" ++ String.mk l else String.mk l

/-- The D/M/Y fallback in `parseDateValue`: two-digit years gain a `20`
century, the parts are zero-padded into an ISO string and reparsed. -/
def dmyFallback (l : List Char) : Option Int :=
  match dmySplit l with
  | some (d, m, y) =>
    let year := if y.length = 2 then "20" ++ String.mk y else String.mk y
    jsDateParse (year ++ "-" ++ pad2str m ++ "-" ++ pad2str d)
  | none => none

/-- Models the workbook loader's `XLSX.SSF.parse_date_code` composed with
`Date.UTC`, for the spreadsheet serial range real workbooks use (serial 61
and above, i.e. dates after 1900-02-28; serial 25569 is the Unix epoch).
Earlier and negative serials are outside the modelled range and map to
`none` like `parse_date_code`'s own failure cases. -/
def parseDateCode (q : ℚ) : Option Int :=
  if q < 61 then none
  else
    let dayPart := q.floor
    let timeSec := ((q - (dayPart : ℚ)) * 86400 + 1 / 2).floor
    some ((dayPart - 25569) * 86400000 + timeSec * 1000)

/-- `parseDateValue` from the source: valid `Date` values pass through,
numbers go through the spreadsheet serial conversion, strings are normalized
(`.` and `/` become `-`) and parsed, with a `D/M/Y` regex fallback. -/
def parseDateValue : Cell → Option Int
  | Cell.cdate t => some t
  | Cell.cnum q => parseDateCode q
  | Cell.cstr s =>
    let trimmed := trimStr s
    if trimmed = "" then none
    else
      match jsDateParse (String.mk (trimmed.data.map
          (fun c => if c = '.' ∨ c = '/' then '-' else c))) with
      | some v => some v
      | none => dmyFallback trimmed.data
  | _ => none

/-- `Date.UTC(1970, 0, 1, h, m, s)` in milliseconds. -/
def utcHMS (h m s : Int) : Int := ((h * 60 + m) * 60 + s) * 1000

/-- The anchored regex `^(\d{1,2})[:.](\d{2})(?:[:.](\d{2}))?$` with the
24-hour bounds check from `parseTimeValue`. -/
def parseTimeString (l : List Char) : Option Int :=
  let hds := l.takeWhile isDigitCh
  let r1 := l.dropWhile isDigitCh
  if hds.length < 1 ∨ 2 < hds.length then none
  else
    match r1 with
    | c1 :: m1 :: m2 :: rest =>
      if (c1 = ':' ∨ c1 = '.') ∧ isDigitCh m1 ∧ isDigitCh m2 then
        let hours := digitsToNat hds
        let minutes := digitsToNat [m1, m2]
        match rest with
        | [] =>
          if hours < 24 ∧ minutes < 60 then some (utcHMS hours minutes 0) else none
        | c2 :: s1 :: s2 :: [] =>
          if (c2 = ':' ∨ c2 = '.') ∧ isDigitCh s1 ∧ isDigitCh s2 then
            let seconds := digitsToNat [s1, s2]
            if hours < 24 ∧ minutes < 60 ∧ seconds < 60 then
              some (utcHMS hours minutes seconds)
            else none
          else none
        | _ => none
      else none
    | _ => none

/-- `parseTimeValue` from the source: valid `Date` values pass through,
numeric day fractions are rounded to seconds and split with `Math.floor` and
the JS `%` operator, strings go through the `H:MM[:SS]` regex. -/
def parseTimeValue : Cell → Option Int
  | Cell.cdate t => some t
  | Cell.cnum q =>
    let totalSeconds := (q * 86400 + 1 / 2).floor
    let hours := Int.fdiv totalSeconds 3600
    let minutes := Int.fdiv (Int.tmod totalSeconds 3600) 60
    let seconds := Int.tmod totalSeconds 60
    some (utcHMS hours minutes seconds)
  | Cell.cstr s => parseTimeString (trimChs s.data)
  | _ => none

/-- `combineDateAndTime`: with no date part the current instant `now` is the
base (`new Date()`); `setHours` keeps the base's civil day and installs the
time part's hours, minutes and seconds, zeroing milliseconds (UTC runtime). -/
def combineDateAndTime (now : Int) (datePart timePart : Option Int) : Option Int :=
  match datePart, timePart with
  | none, none => none
  | _, _ =>
    let base := (datePart.getD now)
    match timePart with
    | none => some base
    | some t => some (base - Int.emod base 86400000 + Int.emod t 86400000 / 1000 * 1000)

/-! ### Parameter registry -/

/-- One entry of `PARAMETER_MAP`: key, display label, unit, keyword matchers,
optional plausibility range, timeline-eligibility flag. -/
structure ParamDef where
  key : String
  label : String
  unit : String
  matchers : List String
  min : Option ℚ := none
  max : Option ℚ := none
  timeline : Bool := false
deriving DecidableEq, Repr

def DATE_KEYWORDS : List String := ["date", "datum", "dag", "dato"]

def TIME_KEYWORDS : List String := ["time", "tid", "klock", "kl", "hour"]

def DATETIME_KEYWORDS : List String := ["timestamp", "tidpunkt", "date/time", "datetime"]

/-- The fixed parameter registry, verbatim from the source. -/
def PARAMETER_MAP : List ParamDef :=
  [ { key := "weight", label := "Vikt", unit := "kg",
      matchers := ["weight", "vikt", "kg"], min := some 20, max := some 400, timeline := true },
    { key := "heartRate", label := "Hjärtfrekvens", unit := "bpm",
      matchers := ["heart rate", "pulse", "hjärtfrekvens", "hr", "slag/min"],
      min := some 20, max := some 260, timeline := true },
    { key := "oxygenSaturation", label := "Syresättning", unit := "%",
      matchers := ["spo2", "so2", "oxygen", "syres", "o2"],
      min := some 40, max := some 100, timeline := true },
    { key := "ldl", label := "LDL", unit := "mmol/L",
      matchers := ["ldl-kolesterol", "ldl"], min := some 0, max := some 20, timeline := true },
    { key := "hdl", label := "HDL", unit := "mmol/L",
      matchers := ["hdl-kolesterol", "hdl"], min := some 0, max := some 20, timeline := true },
    { key := "totalCholesterol", label := "Totalkolesterol", unit := "mmol/L",
      matchers := ["total cholesterol", "cholesterol", "kolesterol"],
      min := some 0, max := some 25, timeline := true },
    { key := "triglycerides", label := "Triglycerider", unit := "mmol/L",
      matchers := ["triglycerid"], min := some 0, max := some 50, timeline := true },
    { key := "glucose", label := "Glukos", unit := "mmol/L",
      matchers := ["glucose", "glukos", "hba1c"], min := some 0, max := some 100, timeline := true },
    { key := "egfr", label := "eGFR", unit := "mL/min",
      matchers := ["egfr"], min := some 0, max := some 200, timeline := true },
    { key := "steps", label := "Steg", unit := "steg",
      matchers := ["steps", "steg"], min := some 0, max := some 200000, timeline := true },
    { key := "sleep", label := "Sömn", unit := "h",
      matchers := ["sleep", "sömn"], min := some 0, max := some 24, timeline := true },
    { key := "bloodPressureSys", label := "Systoliskt", unit := "mmHg",
      matchers := ["systolic", "systoliskt", "sys", "upper bp", "övre"],
      min := some 40, max := some 300 },
    { key := "bloodPressureDia", label := "Diastoliskt", unit := "mmHg",
      matchers := ["diastolic", "diastoliskt", "dia", "lower bp", "nedre"],
      min := some 20, max := some 200 },
    { key := "bloodPressureCombined", label := "Blodtryck", unit := "mmHg",
      matchers := ["blood pressure", "blodtryck", "bp", "rr"] },
    { key := "afBurden", label := "AF-börda", unit := "%",
      matchers := ["af", "atrial fibrillation", "fibrillation", "rytm"],
      min := some 0, max := some 100, timeline := true } ]

/-- `PARAMETER_META`: the key-indexed lookup derived from `PARAMETER_MAP` by
the `reduce`; a later entry with the same key would win, matching the object
assignment semantics. -/
def PARAMETER_META (key : String) : Option ParamDef :=
  PARAMETER_MAP.foldl (fun acc item => if item.key = key then some item else acc) none

/-! ### Column classification -/

/-- A column role. -/
inductive Role where
  | date
  | time
  | datetime
  | value
deriving DecidableEq, Repr

/-- A parameter match for a column: parameter key plus match score. -/
structure Matcher where
  paramKey : String
  score : Nat
deriving DecidableEq, Repr

/-- A column descriptor. -/
structure Descriptor where
  index : Nat
  header : String
  normalized : String
  role : Role
  matcher : Option Matcher
deriving DecidableEq, Repr

/-- `detectDeclaredRole`: `none` models the JS `null` returned for an empty
normalized header; otherwise keyword containment is checked in
datetime → date → time priority order, defaulting to `value`. -/
def detectDeclaredRole (normalizedHeader : String) : Option Role :=
  if normalizedHeader = "" then none
  else if DATETIME_KEYWORDS.any (fun keyword => strHas normalizedHeader keyword) then
    some Role.datetime
  else if DATE_KEYWORDS.any (fun keyword => strHas normalizedHeader keyword) then
    some Role.date
  else if TIME_KEYWORDS.any (fun keyword => strHas normalizedHeader keyword) then
    some Role.time
  else some Role.value

/-- `inferRoleFromSamples`: date if any sample parses as a date, else time if
any parses as a time, else the default value role. -/
def inferRoleFromSamples (samples : List Cell) : Role :=
  if samples.any (fun value => (parseDateValue value).isSome) then Role.date
  else if samples.any (fun value => (parseTimeValue value).isSome) then Role.time
  else Role.value

/-- `matchParameter`: scan the whole registry, keeping the match whose
normalized keyword is longest; on equal length the earlier registry entry
wins (strict `>` in the source). -/
def matchParameter (normalizedHeader : String) : Option Matcher :=
  if normalizedHeader = "" then none
  else
    PARAMETER_MAP.foldl
      (fun best param =>
        param.matchers.foldl
          (fun best matcher =>
            let normalizedMatcher := normalizeText matcher
            if strHas normalizedHeader normalizedMatcher then
              let score := normalizedMatcher.length
              match best with
              | none => some { paramKey := param.key, score := score }
              | some b =>
                if score > b.score then some { paramKey := param.key, score := score } else best
            else best)
          best)
      none

/-- Digit reading for the loose blood-pressure sample regex
`(\d{2,3})\s*[\/\-]\s*(\d{2,3})`: try a group of `n1` digits, optional
whitespace, a slash or dash, optional whitespace, then a 2-3 digit group. -/
def bpLooseTry (l : List Char) (n1 : Nat) : Bool :=
  match bpGroup l n1 with
  | none => false
  | some (_, rest) =>
    match rest.dropWhile isWsCh with
    | [] => false
    | c :: rest2 =>
      if c = '/' ∨ c = '-' then
        let rest3 := rest2.dropWhile isWsCh
        (bpGroup rest3 3).isSome ∨ (bpGroup rest3 2).isSome
      else false

def bpLooseAt (l : List Char) : Bool := bpLooseTry l 3 ∨ bpLooseTry l 2

/-- Whether the loose blood-pressure pattern matches anywhere in the string. -/
def bpLooseScan : List Char → Bool
  | [] => false
  | c :: rest => bpLooseAt (c :: rest) || bpLooseScan rest

/-- The fractional digits of a positive rational below 1, up to `fuel`
decimal places (the host prints at most 17 significant digits). -/
def fracDigits : ℚ → Nat → String
  | _, 0 => ""
  | f, fuel + 1 =>
    if f = 0 then ""
    else
      let f10 := f * 10
      let d := f10.floor.toNat
      toString d ++ fracDigits (f10 - (d : ℚ)) fuel

/-- Models `String(number)` for the finite decimal values spreadsheet cells
hold (plain decimal notation; the exponent notation the host uses for extreme
magnitudes is outside the modelled input space). -/
def qToString (q : ℚ) : String :=
  let sgn := if q < 0 then "-" else ""
  let a := |q|
  let ip := a.floor.toNat
  let frac := a - (ip : ℚ)
  if frac = 0 then sgn ++ toString ip else sgn ++ toString ip ++ "." ++ fracDigits frac 17

def pad2 (n : Nat) : String := if n < 10 then "0" ++ toString n else toString n

def weekdayName (n : Nat) : String :=
  (["Sun", "Mon", "Tue", "Wed", "Thu", "Fri", "Sat"].getD n "Sun")

def monthName (m : Nat) : String :=
  (["", "Jan", "Feb", "Mar", "Apr", "May", "Jun", "Jul", "Aug", "Sep", "Oct", "Nov",
    "Dec"].getD m "Jan")

/-- Models `Date.prototype.toString` in a UTC runtime (the form `String`
produces for a `Date` sample); it contains no slash- or dash-adjacent digit
pairs, so it never matches the loose blood-pressure pattern. -/
def jsDateToString (t : Int) : String :=
  let days := Int.fdiv t 86400000
  let secs := (Int.emod t 86400000).toNat / 1000
  let c := civilFromDays days
  let wd := (Int.emod (days + 4) 7).toNat
  weekdayName wd ++ " " ++ monthName c.2.1 ++ " " ++ pad2 c.2.2 ++ " " ++ toString c.1 ++ " " ++
    pad2 (secs / 3600) ++ ":" ++ pad2 (secs % 3600 / 60) ++ ":" ++ pad2 (secs % 60) ++
    " GMT+0000 (Coordinated Universal Time)"

/-- Models the host `String(value)` coercion per cell variant. -/
def cellToString : Cell → String
  | Cell.cnull => "null"
  | Cell.cnum q => qToString q
  | Cell.cstr s => s
  | Cell.cdate t => jsDateToString t
  | Cell.cbool b => if b then "true" else "false"

/-- `matchParameterBySamples`: a sampled value whose string form contains a
two/three-digit `NN/NN` or `NN-NN` pattern yields a combined blood-pressure
match with score 5. -/
def matchParameterBySamples (samples : List Cell) : Option Matcher :=
  if samples.any (fun sample =>
      match sample with
      | Cell.cnull => false
      | s => bpLooseScan ((cellToString s).data.map jsLowerChar)) then
    some { paramKey := "bloodPressureCombined", score := 5 }
  else none

/-- The sampling loop of `describeColumns`: the non-empty cells of column
`index` over the nine rows following the header. -/
def sampleCells (rows : Sheet) (headerIndex : Nat) (index : Nat) : List Cell :=
  (((rows.drop (headerIndex + 1)).take 9).map (fun r => cellAt r index)).filter cellNonEmptyB

/-- The body of the `headers.map((header, index) => ...)` in
`describeColumns`, for one column. -/
def describeColumn (rows : Sheet) (headerIndex : Nat) (index : Nat) (header : String) :
    Descriptor :=
  let normalized := normalizeText header
  let role0 := detectDeclaredRole normalized
  let matcher0 := matchParameter normalized
  if role0 = none ∨ role0 = some Role.value then
    let sampleValues := sampleCells rows headerIndex index
    let role := match role0 with
      | none => inferRoleFromSamples sampleValues
      | some r => r
    let matcher := match matcher0 with
      | none => matchParameterBySamples sampleValues
      | some m => some m
    { index := index, header := header, normalized := normalized, role := role,
      matcher := matcher }
  else
    { index := index, header := header, normalized := normalized,
      role := role0.getD Role.value, matcher := matcher0 }

/-- Index-carrying recursion for the `headers.map((header, index) => ...)`. -/
def describeColumnsFrom (rows : Sheet) (headerIndex : Nat) : Nat → List String → List Descriptor
  | _, [] => []
  | index, header :: rest =>
    describeColumn rows headerIndex index header ::
      describeColumnsFrom rows headerIndex (index + 1) rest

/-- `describeColumns` from the source. -/
def describeColumns (headers : List String) (rows : Sheet) (headerIndex : Nat) :
    List Descriptor :=
  describeColumnsFrom rows headerIndex 0 headers

/-! ### Header detection -/

/-- The per-cell contribution to a header row's density score: 2 for a
string with non-blank content, otherwise 1 for any other non-null non-empty
cell. -/
def cellScore (cell : Cell) : Nat :=
  match cell with
  | Cell.cstr s => if trimStr s ≠ "" then 2 else if s ≠ "" then 1 else 0
  | Cell.cnull => 0
  | _ => 1

/-- The density score of one candidate header row. -/
def rowScore (row : Row) : Nat := row.foldl (fun score cell => score + cellScore cell) 0

/-- The scanning loop of `findHeaderRow`: fold over the candidate rows,
tracking `(bestIndex, bestScore)` initialized to `(-1, -1)` and updating on a
strictly greater score. -/
def findHeaderScan : List Row → Nat → Int × Int → Int × Int
  | [], _, best => best
  | row :: rest, i, best =>
    let score : Int := rowScore row
    findHeaderScan rest (i + 1) (if score > best.2 then ((i : Int), score) else best)

/-- The header-label synthesis of `findHeaderRow`: trimmed string content, or
the placeholder `Kolumn N` (1-based) for blank or non-string cells. -/
def mkHeadersFrom : Nat → Row → List String
  | _, [] => []
  | idx, cell :: rest =>
    (match cell with
     | Cell.cstr s =>
       let label := trimStr s
       if label = "" then "Kolumn " ++ toString (idx + 1) else label
     | _ => "Kolumn " ++ toString (idx + 1)) :: mkHeadersFrom (idx + 1) rest

def mkHeaders (row : Row) : List String := mkHeadersFrom 0 row

/-- `findHeaderRow`: scan at most the first 20 rows, pick the first row of
maximal score, and fail (`null`) when nothing scored above zero. -/
def findHeaderRow (rows : Sheet) : Option (Nat × List String) :=
  let best := findHeaderScan (rows.take 20) 0 (-1, -1)
  if best.1 = -1 ∨ best.2 = 0 then none
  else
    let i := best.1.toNat
    some (i, mkHeaders ((rows.get? i).getD []))

/-! ### Metrics state -/

/-- A `metrics.latest` entry: the numeric shape written by `addNumericSample`
or the systolic/diastolic pair shape written by `addBloodPressureSample`. -/
inductive LatestVal where
  | num (value : ℚ) (timestamp : Option Int) (unit : String) (order : Nat)
  | bp (systolic : Option ℚ) (diastolic : Option ℚ) (unit : String) (timestamp : Option Int)
      (order : Nat)
deriving DecidableEq, Repr

/-- Property read `entry.timestamp`. -/
def LatestVal.timestamp : LatestVal → Option Int
  | LatestVal.num _ t _ _ => t
  | LatestVal.bp _ _ _ t _ => t

/-- Property read `entry.order`. -/
def LatestVal.order : LatestVal → Nat
  | LatestVal.num _ _ _ o => o
  | LatestVal.bp _ _ _ _ o => o

/-- Property read `entry.value` (`undefined` on the blood-pressure shape). -/
def LatestVal.value : LatestVal → Option ℚ
  | LatestVal.num v _ _ _ => some v
  | LatestVal.bp _ _ _ _ _ => none

/-- Property read `entry.systolic` (`undefined` on the numeric shape). -/
def LatestVal.bpSys : LatestVal → Option ℚ
  | LatestVal.num _ _ _ _ => none
  | LatestVal.bp s _ _ _ _ => s

/-- Property read `entry.diastolic` (`undefined` on the numeric shape). -/
def LatestVal.bpDia : LatestVal → Option ℚ
  | LatestVal.num _ _ _ _ => none
  | LatestVal.bp _ d _ _ _ => d

/-- A trend entry: the `{value, timestamp, sheet}` shape pushed by
`addNumericSample`, or the `{systolic, diastolic, timestamp, sheet}` shape
pushed by `addBloodPressureSample`. -/
inductive TrendEntry where
  | tnum (value : ℚ) (timestamp : Option Int) (sheet : String)
  | tbp (systolic : ℚ) (diastolic : ℚ) (timestamp : Option Int) (sheet : String)
deriving DecidableEq, Repr

/-- Property read `entry.timestamp`. -/
def TrendEntry.timestamp : TrendEntry → Option Int
  | TrendEntry.tnum _ t _ => t
  | TrendEntry.tbp _ _ t _ => t

/-- Property read `entry.value` (`undefined` on the blood-pressure shape). -/
def TrendEntry.value : TrendEntry → Option ℚ
  | TrendEntry.tnum v _ _ => some v
  | TrendEntry.tbp _ _ _ _ => none

/-- Property read on a string-keyed JS object modelled as an association list
in property-insertion order. -/
def objGet {α : Type} : List (String × α) → String → Option α
  | [], _ => none
  | (k, v) :: rest, key => if k = key then some v else objGet rest key

/-- Property write on a string-keyed JS object: update in place when the key
exists, else append (JS property-insertion order). -/
def objSet {α : Type} : List (String × α) → String → α → List (String × α)
  | [], key, v => [(key, v)]
  | (k, v0) :: rest, key, v =>
    if k = key then (key, v) :: rest else (k, v0) :: objSet rest key v

/-- The `metrics` object: `latest` (nullable per-parameter entries) and
`trends` (per-parameter entry lists). -/
structure Metrics where
  latest : List (String × Option LatestVal)
  trends : List (String × List TrendEntry)
deriving DecidableEq, Repr

/-- `createEmptyMetrics`, verbatim key lists in source order. -/
def createEmptyMetrics : Metrics :=
  { latest :=
      [("bloodPressure", none), ("heartRate", none), ("oxygenSaturation", none),
       ("weight", none), ("rhythm", none), ("ldl", none), ("hdl", none),
       ("totalCholesterol", none), ("triglycerides", none), ("glucose", none),
       ("egfr", none), ("steps", none), ("sleep", none)],
    trends :=
      [("bloodPressure", []), ("heartRate", []), ("oxygenSaturation", []), ("weight", []),
       ("ldl", []), ("hdl", []), ("totalCholesterol", []), ("triglycerides", []),
       ("glucose", []), ("egfr", []), ("steps", []), ("sleep", []), ("afBurden", [])] }

/-- `shouldReplaceLatest`: the latest-value replacement rule.  `current` is
the stored entry (or nothing), `timestamp` the candidate's timestamp,
`order` the candidate's sequence number. -/
def shouldReplaceLatest (current : Option LatestVal) (timestamp : Option Int) (order : Nat) :
    Bool :=
  match current with
  | none => true
  | some cur =>
    match timestamp, cur.timestamp with
    | some t, some ct => decide (ct ≤ t)
    | some _, none => true
    | none, some _ => false
    | none, none => decide (cur.order ≤ order)

/-- The range guard `def.min !== undefined && value < def.min`. -/
def belowMin (d : ParamDef) (value : ℚ) : Bool :=
  match d.min with
  | some mn => decide (value < mn)
  | none => false

/-- The range guard `def.max !== undefined && value > def.max`. -/
def aboveMax (d : ParamDef) (value : ℚ) : Bool :=
  match d.max with
  | some mx => decide (value > mx)
  | none => false

/-- `addNumericSample`: registry lookup, plausibility-range guards, trend
append (timeline-eligible and timestamped samples only), then latest-value
replacement under `shouldReplaceLatest`. -/
def addNumericSample (metrics : Metrics) (key : String) (value : ℚ) (timestamp : Option Int)
    (order : Nat) (sheetName : String) : Metrics :=
  match PARAMETER_META key with
  | none => metrics
  | some d =>
    if belowMin d value then metrics
    else if aboveMax d value then metrics
    else
      let metrics :=
        if d.timeline ∧ timestamp.isSome then
          let entries := (objGet metrics.trends key).getD []
          { metrics with
            trends := objSet metrics.trends key
              (entries ++ [TrendEntry.tnum value timestamp sheetName]) }
        else metrics
      let current := (objGet metrics.latest key).bind id
      if shouldReplaceLatest current timestamp order then
        { metrics with
          latest := objSet metrics.latest key
            (some (LatestVal.num value timestamp d.unit order)) }
      else metrics

/-- The extracted values of one row: the `values` dictionary built by
`extractRowValues`, with the `systolic` / `diastolic` keys split out and the
remaining parameter keys kept in insertion order. -/
structure RowValues where
  systolic : Option ℚ := none
  diastolic : Option ℚ := none
  others : List (String × ℚ) := []
deriving DecidableEq, Repr

/-- `addBloodPressureSample`: out-of-range sides drop the whole sample, a
trend entry needs both sides plus a timestamp, and the latest value merges
an absent side from the previously retained one. -/
def addBloodPressureSample (metrics : Metrics) (rowValues : RowValues)
    (timestamp : Option Int) (order : Nat) (sheetName : String) : Metrics :=
  let systolic := rowValues.systolic
  let diastolic := rowValues.diastolic
  if systolic.any (fun s => decide (s < 40 ∨ s > 300)) then metrics
  else if diastolic.any (fun d => decide (d < 20 ∨ d > 200)) then metrics
  else if systolic = none ∧ diastolic = none then metrics
  else
    let metrics :=
      match timestamp, systolic, diastolic with
      | some _, some s, some d =>
        let entries := (objGet metrics.trends "bloodPressure").getD []
        { metrics with
          trends := objSet metrics.trends "bloodPressure"
            (entries ++ [TrendEntry.tbp s d timestamp sheetName]) }
      | _, _, _ => metrics
    let current := (objGet metrics.latest "bloodPressure").bind id
    if shouldReplaceLatest current timestamp order then
      let curSys := (current.map LatestVal.bpSys).getD none
      let curDia := (current.map LatestVal.bpDia).getD none
      { metrics with
        latest := objSet metrics.latest "bloodPressure"
          (some (LatestVal.bp (systolic.orElse (fun _ => curSys))
            (diastolic.orElse (fun _ => curDia)) "mmHg" timestamp order)) }
    else metrics

/-! ### Row extraction -/

/-- `extractRowValues`: per matched column, dispatch on the parameter key
(compound blood pressure, single systolic / diastolic, generic numeric). -/
def extractRowValues (row : Row) (descriptors : List Descriptor) : RowValues :=
  descriptors.foldl
    (fun values descriptor =>
      match descriptor.matcher with
      | none => values
      | some m =>
        let rawValue := cellAt row descriptor.index
        if cellNonEmptyB rawValue = false then values
        else if m.paramKey = "bloodPressureCombined" then
          match parseBloodPressureCompound rawValue with
          | some bp => { values with systolic := some (bp.1 : ℚ), diastolic := some (bp.2 : ℚ) }
          | none => values
        else if m.paramKey = "bloodPressureSys" then
          match parseNumber rawValue with
          | some num => { values with systolic := some num }
          | none => values
        else if m.paramKey = "bloodPressureDia" then
          match parseNumber rawValue with
          | some num => { values with diastolic := some num }
          | none => values
        else
          match parseNumber rawValue with
          | some num => { values with others := objSet values.others m.paramKey num }
          | none => values)
    {}

/-- The first datetime- or date-role column whose cell parses as a date
(the two early-return loops of `deriveTimestamp`). -/
def firstRoleDate (role : Role) (row : Row) (descriptors : List Descriptor) : Option Int :=
  descriptors.findSome? (fun d =>
    if d.role = role then parseDateValue (cellAt row d.index) else none)

/-- The first time-role column whose cell parses as a time. -/
def firstRoleTime (row : Row) (descriptors : List Descriptor) : Option Int :=
  descriptors.findSome? (fun d =>
    if d.role = Role.time then parseTimeValue (cellAt row d.index) else none)

/-- `deriveTimestamp`: datetime columns first, else the first date part and
first time part combined; `null` when neither resolves. -/
def deriveTimestamp (now : Int) (row : Row) (descriptors : List Descriptor) : Option Int :=
  match firstRoleDate Role.datetime row descriptors with
  | some value => some value
  | none =>
    let datePart := firstRoleDate Role.date row descriptors
    let timePart := firstRoleTime row descriptors
    match datePart, timePart with
    | none, none => none
    | _, _ => combineDateAndTime now datePart timePart

/-! ### Aggregation -/

/-- One `sheetSummaries` entry. -/
structure SheetSummary where
  sheetName : String
  headerRowIndex : Nat
  headerRow : List String
  rowCount : Nat
deriving DecidableEq, Repr

/-- A `dynamicData` value: numeric, or trimmed text. -/
inductive DynVal where
  | dnum (q : ℚ)
  | dstr (s : String)
deriving DecidableEq, Repr

/-- The mutable aggregation state threaded through `processSheet`
(`createAggregation` minus the constant result fields, which the model
assembles directly in `parseWorkbook`). -/
structure Agg where
  sampleSequence : Nat
  metrics : Metrics
  rawLabels : List String
  dynamicData : List (String × DynVal)
  sheetSummaries : List SheetSummary
deriving DecidableEq, Repr

/-- The fresh aggregation state of `createAggregation`. -/
def createAggregation : Agg :=
  { sampleSequence := 0, metrics := createEmptyMetrics, rawLabels := [], dynamicData := [],
    sheetSummaries := [] }

/-- `Set.prototype.add` on the insertion-ordered label set. -/
def addLabel (labels : List String) (label : String) : List String :=
  if label ∈ labels then labels else labels ++ [label]

/-- The JS truthiness test applied to `rowValues.systolic || rowValues.diastolic`
(a present value `0` is falsy). -/
def truthyOpt : Option ℚ → Bool
  | none => false
  | some q => decide (q ≠ 0)

/-- `applyRowValues`: bump the file-scoped sequence counter once, feed the
blood-pressure pair when either side is truthy, then feed every other
extracted parameter value. -/
def applyRowValues (agg : Agg) (rowValues : RowValues) (timestamp : Option Int)
    (sheetName : String) : Agg :=
  let order := agg.sampleSequence + 1
  let metrics :=
    if truthyOpt rowValues.systolic || truthyOpt rowValues.diastolic then
      addBloodPressureSample agg.metrics rowValues timestamp order sheetName
    else agg.metrics
  let metrics := rowValues.others.foldl
    (fun m kv => addNumericSample m kv.1 kv.2 timestamp order sheetName) metrics
  { agg with sampleSequence := order, metrics := metrics }

/-- `updateRawCollections`: for every matched column record the header label
into the raw label set, and store the cell's numeric or trimmed text value
into `dynamicData` (last write wins). -/
def updateRawCollections (agg : Agg) (descriptors : List Descriptor) (row : Row) : Agg :=
  descriptors.foldl
    (fun agg descriptor =>
      match descriptor.matcher with
      | none => agg
      | some _ =>
        let label :=
          if descriptor.header = "" then "Kolumn " ++ toString (descriptor.index + 1)
          else descriptor.header
        let agg := { agg with rawLabels := addLabel agg.rawLabels label }
        let cellValue := cellAt row descriptor.index
        if cellNonEmptyB cellValue = false then agg
        else
          match parseNumber cellValue with
          | some numeric => { agg with dynamicData := objSet agg.dynamicData label (DynVal.dnum numeric) }
          | none =>
            match cellValue with
            | Cell.cstr s =>
              let trimmed := trimStr s
              if trimmed ≠ "" then
                { agg with dynamicData := objSet agg.dynamicData label (DynVal.dstr trimmed) }
              else agg
            | _ => agg)
    agg

/-- `processSheet`: find the header, filter the non-empty data rows, build
column descriptors, record the sheet summary, then fold every data row
through timestamp derivation, value extraction and aggregation. -/
def processSheet (now : Int) (agg : Agg) (sheetName : String) (rows : Sheet) : Agg :=
  if rows.isEmpty then agg
  else
    match findHeaderRow rows with
    | none => agg
    | some (headerIndex, headers) =>
      let dataRows := (rows.drop (headerIndex + 1)).filter (fun row => row.any cellNonEmptyB)
      if dataRows.isEmpty then agg
      else
        let descriptors := describeColumns headers rows headerIndex
        let agg :=
          { agg with
            sheetSummaries := agg.sheetSummaries ++
              [{ sheetName := sheetName, headerRowIndex := headerIndex, headerRow := headers,
                 rowCount := dataRows.length }] }
        dataRows.foldl
          (fun agg row =>
            let timestamp := deriveTimestamp now row descriptors
            let rowValues := extractRowValues row descriptors
            let agg := applyRowValues agg rowValues timestamp sheetName
            updateRawCollections agg descriptors row)
          agg

/-! ### Trend finalization and result assembly -/

/-- The JS sort comparator of `finalizeTrends` as a binary relation: entries
lacking a timestamp compare as equal to everything (comparator result 0). -/
def tsLe (a b : TrendEntry) : Bool :=
  match a.timestamp, b.timestamp with
  | some x, some y => decide (x ≤ y)
  | _, _ => true

/-- Stable insertion step for the trend sort. -/
def orderedInsertTs (e : TrendEntry) : List TrendEntry → List TrendEntry
  | [] => [e]
  | x :: xs => if tsLe e x then e :: x :: xs else x :: orderedInsertTs e xs

/-- The stable ascending-timestamp sort applied to each trend list
(JS `Array.prototype.sort` is stable). -/
def sortTrend : List TrendEntry → List TrendEntry
  | [] => []
  | x :: xs => orderedInsertTs x (sortTrend xs)

/-- `finalizeTrends`: sort every non-empty trend list chronologically. -/
def finalizeTrends (metrics : Metrics) : Metrics :=
  { metrics with
    trends := metrics.trends.map (fun kv =>
      if kv.2.isEmpty then kv else (kv.1, sortTrend kv.2)) }

def MAX_RAW_ITEMS : Nat := 100

/-- One entry of the localized heart-rate timeline. -/
structure TimelinePoint where
  time : String
  value : Option ℚ
  unit : String
deriving DecidableEq, Repr

/-- The derived heart view. -/
structure HeartData where
  heartRate : Option ℚ
  systolicBP : Option ℚ
  diastolicBP : Option ℚ
  cholesterolLDL : Option ℚ
  heartRateOverTime : List TimelinePoint
  bloodPressureData : List TrendEntry
  ecgData : List Unit
  hrvData : List Unit
deriving DecidableEq, Repr

/-- Models `toLocaleString("sv-SE")` on a timestamp in a UTC runtime
(`YYYY-MM-DD HH:MM:SS`). -/
def msToSvString (t : Int) : String :=
  let days := Int.fdiv t 86400000
  let secs := (Int.emod t 86400000).toNat / 1000
  let c := civilFromDays days
  toString c.1 ++ "-" ++ pad2 c.2.1 ++ "-" ++ pad2 c.2.2 ++ " " ++ pad2 (secs / 3600) ++ ":" ++
    pad2 (secs % 3600 / 60) ++ ":" ++ pad2 (secs % 60)

/-- The `formatTimeline` helper of `buildHeartData`. -/
def formatTimeline (entries : List TrendEntry) (unitSuffix : String) : List TimelinePoint :=
  entries.map (fun entry =>
    { time := match entry.timestamp with
        | some t => msToSvString t
        | none => "",
      value := entry.value,
      unit := trimStr unitSuffix })

/-- `buildHeartData`. -/
def buildHeartData (metrics : Metrics) : HeartData :=
  { heartRate := ((objGet metrics.latest "heartRate").bind id).bind LatestVal.value,
    systolicBP := ((objGet metrics.latest "bloodPressure").bind id).bind LatestVal.bpSys,
    diastolicBP := ((objGet metrics.latest "bloodPressure").bind id).bind LatestVal.bpDia,
    cholesterolLDL := ((objGet metrics.latest "ldl").bind id).bind LatestVal.value,
    heartRateOverTime := formatTimeline ((objGet metrics.trends "heartRate").getD []) "bpm",
    bloodPressureData := (objGet metrics.trends "bloodPressure").getD [],
    ecgData := [], hrvData := [] }

/-- The worker's input metadata `{name, uploadedAt}` (either may be absent). -/
structure ExcelMeta where
  name : Option String
  uploadedAt : Option Int
deriving DecidableEq, Repr

/-- The result document.  `filename` and `sheetSummaries` are `Option` so the
model can state whether the JS object carries the property at all: the
fallback result omits `sheetSummaries` and copies `excelFile.name` verbatim. -/
structure Result where
  filename : Option String
  uploadedAt : Int
  parsedAt : Int
  sheetNames : List String
  sheetSummaries : Option (List SheetSummary)
  metrics : Metrics
  rawData : List String
  dynamicData : List (String × DynVal)
  heartData : HeartData
  error : Option String
deriving DecidableEq, Repr

/-- `parseWorkbook`: fold every sheet through `processSheet`, finalize the
trends, bound the raw label list, and assemble the result document.
`now` is the current instant (`Date.now()` / `new Date()`). -/
def parseWorkbook (now : Int) (excelMeta : ExcelMeta) (workbook : List (String × Sheet)) :
    Result :=
  let agg := workbook.foldl (fun a sheet => processSheet now a sheet.1 sheet.2)
    createAggregation
  let metrics := finalizeTrends agg.metrics
  { filename := some (excelMeta.name.getD "excel.xlsx"),
    uploadedAt := excelMeta.uploadedAt.getD now,
    parsedAt := now,
    sheetNames := workbook.map (fun sheet => sheet.1),
    sheetSummaries := some agg.sheetSummaries,
    metrics := metrics,
    rawData := agg.rawLabels.take MAX_RAW_ITEMS,
    dynamicData := agg.dynamicData,
    heartData := buildHeartData metrics,
    error := none }

/-- `createFallbackExcelContent`: the minimal result with empty metrics and a
non-null error marker (it carries no `sheetSummaries` property). -/
def createFallbackExcelContent (now : Int) (excelFile : ExcelMeta) : Result :=
  { filename := excelFile.name,
    uploadedAt := excelFile.uploadedAt.getD now,
    parsedAt := now,
    sheetNames := [],
    sheetSummaries := none,
    metrics := createEmptyMetrics,
    rawData := [],
    dynamicData := [],
    heartData :=
      { heartRate := none, systolicBP := none, diastolicBP := none, cholesterolLDL := none,
        heartRateOverTime := [], bloodPressureData := [], ecgData := [], hrvData := [] },
    error := some "Excel file could not be parsed automatically" }

/-- The worker entry IIFE: file reading and workbook decoding are the
collaborator steps that can throw, modelled as an `Except`; a decoded
workbook goes through `parseWorkbook`, any thrown error is caught and
converted to the fallback result.  Totality of this function is the model of
"no exception escapes". -/
def runWorker (now : Int) (meta : ExcelMeta) (decoded : Except String (List (String × Sheet))) :
    Result :=
  match decoded with
  | Except.ok workbook => parseWorkbook now meta workbook
  | Except.error _ => createFallbackExcelContent now meta

/-! ### Wall-clock dependence (for the determinism claim) -/

/-- Whether `deriveTimestamp` reaches the `new Date()` fallback on this row:
no datetime column parses, no date part resolves, but a time part does. -/
def rowUsesNow (descriptors : List Descriptor) (row : Row) : Bool :=
  (firstRoleDate Role.datetime row descriptors).isNone &&
    (firstRoleDate Role.date row descriptors).isNone &&
    (firstRoleTime row descriptors).isSome

/-- Whether any processed data row of the sheet reaches the `new Date()`
fallback. -/
def sheetUsesNow (rows : Sheet) : Bool :=
  match findHeaderRow rows with
  | none => false
  | some (headerIndex, headers) =>
    let dataRows := (rows.drop (headerIndex + 1)).filter (fun row => row.any cellNonEmptyB)
    let descriptors := describeColumns headers rows headerIndex
    dataRows.any (fun row => rowUsesNow descriptors row)

/-- Whether any sheet of the workbook reaches the `new Date()` fallback. -/
def workbookUsesNow (workbook : List (String × Sheet)) : Bool :=
  workbook.any (fun sheet => sheetUsesNow sheet.2)

/-! ### Invariant predicates used by the claim theorems -/

/-- Every entry of every trend list carries a non-null timestamp. -/
def trendsTimestamped (m : Metrics) : Prop :=
  ∀ kv ∈ m.trends, ∀ e ∈ kv.2, e.timestamp.isSome = true

/-- A value within the declared part of a registry entry's plausibility
range. -/
def inRangeOf (d : ParamDef) (v : ℚ) : Prop :=
  (∀ mn, d.min = some mn → mn ≤ v) ∧ (∀ mx, d.max = some mx → v ≤ mx)

/-- Range discipline of one `metrics.latest` entry stored under `key`. -/
def latestValOk (key : String) (lv : LatestVal) : Prop :=
  match lv with
  | LatestVal.num v _ _ _ => ∀ d, PARAMETER_META key = some d → inRangeOf d v
  | LatestVal.bp s di _ _ _ =>
    (∀ x, s = some x → 40 ≤ x ∧ x ≤ 300) ∧ (∀ x, di = some x → 20 ≤ x ∧ x ≤ 200)

/-- Range discipline of one trend entry stored under `key`. -/
def trendEntryOk (key : String) (e : TrendEntry) : Prop :=
  match e with
  | TrendEntry.tnum v _ _ => ∀ d, PARAMETER_META key = some d → inRangeOf d v
  | TrendEntry.tbp s di _ _ => 40 ≤ s ∧ s ≤ 300 ∧ 20 ≤ di ∧ di ≤ 200

/-- Every value accepted into the metrics respects its parameter's declared
plausibility range (with the literal `[40,300]` / `[20,200]` blood-pressure
bounds, which coincide with the registry's systolic and diastolic ranges). -/
def metricsInRange (m : Metrics) : Prop :=
  (∀ kv ∈ m.latest, ∀ lv, kv.2 = some lv → latestValOk kv.1 lv) ∧
  (∀ kv ∈ m.trends, ∀ e ∈ kv.2, trendEntryOk kv.1 e)

/-- The latest-value replacement total order exactly as the specification
states it (this is the spec-side definition, to be compared with the source's
`shouldReplaceLatest`): a candidate replaces the current value when (1) no
current value exists, or (2) both carry timestamps and the candidate's is at
least the current's, or (3) the candidate has a timestamp and the current
does not, or (4) neither has a timestamp and the candidate's sequence number
is at least the current's. -/
def latestOrderSpec (current : Option LatestVal) (timestamp : Option Int) (order : Nat) :
    Prop :=
  current = none ∨
    ∃ cur, current = some cur ∧
      ((∃ t ct, timestamp = some t ∧ cur.timestamp = some ct ∧ ct ≤ t) ∨
       (timestamp.isSome = true ∧ cur.timestamp = none) ∨
       (timestamp = none ∧ cur.timestamp = none ∧ cur.order ≤ order))

/-! ### Helper lemmas -/

theorem foldlPreserve {α β : Type} {P : α → Prop} (f : α → β → α) (l : List β) (a : α)
    (step : ∀ a b, P a → P (f a b)) (h : P a) : P (l.foldl f a) := by
  induction l generalizing a with
  | nil => exact h
  | cons x xs ih => exact ih _ (step _ _ h)

theorem foldlCongr {α β : Type} (f g : α → β → α) (l : List β) (a : α)
    (h : ∀ a b, b ∈ l → f a b = g a b) : l.foldl f a = l.foldl g a := by
  induction l generalizing a with
  | nil => rfl
  | cons x xs ih =>
    rw [List.foldl_cons, List.foldl_cons, h a x (by simp)]
    exact ih _ (fun a b hb => h a b (by simp [hb]))

theorem objGet_mem {α : Type} (l : List (String × α)) (k : String) (v : α)
    (h : objGet l k = some v) : (k, v) ∈ l := by
  induction l with
  | nil => simp [objGet] at h
  | cons p rest ih =>
    by_cases hk : p.1 = k
    · have : objGet (p :: rest) k = some p.2 := by
        cases p; simp_all [objGet]
      rw [this] at h
      cases p
      simp_all
    · have : objGet (p :: rest) k = objGet rest k := by
        cases p; simp_all [objGet]
      rw [this] at h
      exact List.mem_cons_of_mem _ (ih h)

theorem mem_objSet {α : Type} (l : List (String × α)) (k : String) (v : α) (x : String × α)
    (h : x ∈ objSet l k v) : x = (k, v) ∨ x ∈ l := by
  induction l with
  | nil => simp [objSet] at h; simp [h]
  | cons p rest ih =>
    by_cases hk : p.1 = k
    · have : objSet (p :: rest) k v = (k, v) :: rest := by cases p; simp_all [objSet]
      rw [this] at h
      rcases List.mem_cons.mp h with h1 | h1
      · exact Or.inl h1
      · exact Or.inr (List.mem_cons_of_mem _ h1)
    · have : objSet (p :: rest) k v = p :: objSet rest k v := by cases p; simp_all [objSet]
      rw [this] at h
      rcases List.mem_cons.mp h with h1 | h1
      · exact Or.inr (by simp [h1])
      · rcases ih h1 with h2 | h2
        · exact Or.inl h2
        · exact Or.inr (List.mem_cons_of_mem _ h2)

theorem objGet_objSet_self {α : Type} (l : List (String × α)) (k : String) (v : α) :
    objGet (objSet l k v) k = some v := by
  induction l with
  | nil => simp [objSet, objGet]
  | cons p rest ih =>
    by_cases hk : p.1 = k
    · have : objSet (p :: rest) k v = (k, v) :: rest := by cases p; simp_all [objSet]
      rw [this]; simp [objGet]
    · have : objSet (p :: rest) k v = p :: objSet rest k v := by cases p; simp_all [objSet]
      rw [this]
      cases p
      simp_all [objGet]

theorem mem_orderedInsertTs (e x : TrendEntry) (l : List TrendEntry)
    (h : x ∈ orderedInsertTs e l) : x = e ∨ x ∈ l := by
  induction l with
  | nil => simp [orderedInsertTs] at h; simp [h]
  | cons y ys ih =>
    by_cases hle : tsLe e y
    · simp [orderedInsertTs, hle] at h
      rcases h with h | h | h
      · exact Or.inl h
      · exact Or.inr (by simp [h])
      · exact Or.inr (by simp [h])
    · simp [orderedInsertTs, hle] at h
      rcases h with h | h
      · exact Or.inr (by simp [h])
      · rcases ih h with h1 | h1
        · exact Or.inl h1
        · exact Or.inr (by simp [h1])

theorem mem_sortTrend (x : TrendEntry) (l : List TrendEntry) (h : x ∈ sortTrend l) :
    x ∈ l := by
  induction l with
  | nil => simp [sortTrend] at h
  | cons y ys ih =>
    rcases mem_orderedInsertTs y x (sortTrend ys) h with h1 | h1
    · simp [h1]
    · exact List.mem_cons_of_mem _ (ih h1)

theorem updateRawCollections_metrics (agg : Agg) (descriptors : List Descriptor) (row : Row) :
    (updateRawCollections agg descriptors row).metrics = agg.metrics := by
  have := foldlPreserve (P := fun a => a.metrics = agg.metrics)
    (fun agg descriptor =>
      match descriptor.matcher with
      | none => agg
      | some _ =>
        let label :=
          if descriptor.header = "" then "Kolumn " ++ toString (descriptor.index + 1)
          else descriptor.header
        let agg := { agg with rawLabels := addLabel agg.rawLabels label }
        let cellValue := cellAt row descriptor.index
        if cellNonEmptyB cellValue = false then agg
        else
          match parseNumber cellValue with
          | some numeric =>
            { agg with dynamicData := objSet agg.dynamicData label (DynVal.dnum numeric) }
          | none =>
            match cellValue with
            | Cell.cstr s =>
              let trimmed := trimStr s
              if trimmed ≠ "" then
                { agg with dynamicData := objSet agg.dynamicData label (DynVal.dstr trimmed) }
              else agg
            | _ => agg)
    descriptors agg ?_ rfl
  · exact this
  · intro a d ha
    rcases hm : d.matcher with _ | m
    · simpa [hm] using ha
    · simp only [hm]
      split
      · simp [ha]
      · split
        · simp [ha]
        · split
          · split <;> simp [ha]
          · simp [ha]

theorem addNumericSample_trends (m : Metrics) (key : String) (v : ℚ) (ts : Option Int)
    (ord : Nat) (sh : String) :
    (addNumericSample m key v ts ord sh).trends = m.trends ∨
    (∃ d, PARAMETER_META key = some d ∧ d.timeline = true ∧ ts.isSome = true ∧
      belowMin d v = false ∧ aboveMax d v = false ∧
      (addNumericSample m key v ts ord sh).trends =
        objSet m.trends key (((objGet m.trends key).getD []) ++ [TrendEntry.tnum v ts sh])) := by
  unfold addNumericSample
  cases hd : PARAMETER_META key with
  | none => exact Or.inl rfl
  | some d =>
    by_cases hb : belowMin d v
    · simp [hb]
    · by_cases ha : aboveMax d v
      · simp [hb, ha]
      · by_cases ht : d.timeline = true ∧ ts.isSome = true
        · right
          refine ⟨d, rfl, ht.1, ht.2, by simp [hb], by simp [ha], ?_⟩
          simp only [hb, ha, Bool.false_eq_true, if_false, ht.1, ht.2, and_self, if_true]
          split <;> rfl
        · left
          simp only [hb, ha, Bool.false_eq_true, if_false]
          have ht' : ¬ (d.timeline = true ∧ ts.isSome = true) := ht
          rw [if_neg ht']
          split <;> rfl

theorem addBloodPressureSample_trends (m : Metrics) (rv : RowValues) (ts : Option Int)
    (ord : Nat) (sh : String) :
    (addBloodPressureSample m rv ts ord sh).trends = m.trends ∨
    (∃ t s d0, ts = some t ∧ rv.systolic = some s ∧ rv.diastolic = some d0 ∧
      40 ≤ s ∧ s ≤ 300 ∧ 20 ≤ d0 ∧ d0 ≤ 200 ∧
      (addBloodPressureSample m rv ts ord sh).trends =
        objSet m.trends "bloodPressure"
          (((objGet m.trends "bloodPressure").getD []) ++ [TrendEntry.tbp s d0 ts sh])) := by
  unfold addBloodPressureSample
  by_cases h1 : rv.systolic.any (fun s => decide (s < 40 ∨ s > 300)) = true
  · rw [if_pos h1]
    exact Or.inl rfl
  · rw [if_neg h1]
    by_cases h2 : rv.diastolic.any (fun d => decide (d < 20 ∨ d > 200)) = true
    · rw [if_pos h2]
      exact Or.inl rfl
    · rw [if_neg h2]
      by_cases h3 : rv.systolic = none ∧ rv.diastolic = none
      · rw [if_pos h3]
        exact Or.inl rfl
      · rw [if_neg h3]
        cases hts : ts with
        | none =>
          left
          cases hs : rv.systolic <;> cases hd : rv.diastolic <;>
            · simp only [hs, hd]
              split <;> rfl
        | some t =>
          cases hs : rv.systolic with
          | none =>
            left
            cases hd : rv.diastolic <;>
              · simp only [hs, hd]
                split <;> rfl
          | some s =>
            cases hd : rv.diastolic with
            | none =>
              left
              simp only [hs, hd]
              split <;> rfl
            | some d0 =>
              right
              have hsr : ¬ (s < 40 ∨ s > 300) := by
                intro hc
                apply h1
                rw [hs]
                simpa using hc
              have hdr : ¬ (d0 < 20 ∨ d0 > 200) := by
                intro hc
                apply h2
                rw [hd]
                simpa using hc
              have hs1 : 40 ≤ s := le_of_not_lt (fun hc => hsr (Or.inl hc))
              have hs2 : s ≤ 300 := le_of_not_lt (fun hc => hsr (Or.inr hc))
              have hd1 : 20 ≤ d0 := le_of_not_lt (fun hc => hdr (Or.inl hc))
              have hd2 : d0 ≤ 200 := le_of_not_lt (fun hc => hdr (Or.inr hc))
              refine ⟨t, s, d0, rfl, rfl, rfl, hs1, hs2, hd1, hd2, ?_⟩
              simp only [hs, hd]
              split <;> rfl

theorem trendsTimestamped_addNumericSample (m : Metrics) (key : String) (v : ℚ)
    (ts : Option Int) (ord : Nat) (sh : String) (h : trendsTimestamped m) :
    trendsTimestamped (addNumericSample m key v ts ord sh) := by
  rcases addNumericSample_trends m key v ts ord sh with he | ⟨d, _, _, hts, _, _, he⟩
  · intro kv hkv e hke
    rw [he] at hkv
    exact h kv hkv e hke
  · intro kv hkv e hke
    rw [he] at hkv
    rcases mem_objSet _ _ _ _ hkv with h1 | h1
    · subst h1
      rcases List.mem_append.mp hke with h2 | h2
      · cases hg : objGet m.trends key with
        | none => rw [hg] at h2; simp at h2
        | some es =>
          rw [hg] at h2
          exact h (key, es) (objGet_mem _ _ _ hg) e (by simpa using h2)
      · simp at h2
        subst h2
        simpa [TrendEntry.timestamp] using hts
    · exact h kv h1 e hke

theorem trendsTimestamped_addBloodPressureSample (m : Metrics) (rv : RowValues)
    (ts : Option Int) (ord : Nat) (sh : String) (h : trendsTimestamped m) :
    trendsTimestamped (addBloodPressureSample m rv ts ord sh) := by
  rcases addBloodPressureSample_trends m rv ts ord sh with he | ⟨t, s, d0, hts, _, _, _, _, _, _, he⟩
  · intro kv hkv e hke
    rw [he] at hkv
    exact h kv hkv e hke
  · intro kv hkv e hke
    rw [he] at hkv
    rcases mem_objSet _ _ _ _ hkv with h1 | h1
    · subst h1
      rcases List.mem_append.mp hke with h2 | h2
      · cases hg : objGet m.trends "bloodPressure" with
        | none => rw [hg] at h2; simp at h2
        | some es =>
          rw [hg] at h2
          exact h _ (objGet_mem _ _ _ hg) e (by simpa using h2)
      · simp at h2
        subst h2
        simp [TrendEntry.timestamp, hts]
    · exact h kv h1 e hke

theorem trendsTimestamped_applyRowValues (agg : Agg) (rv : RowValues) (ts : Option Int)
    (sh : String) (h : trendsTimestamped agg.metrics) :
    trendsTimestamped (applyRowValues agg rv ts sh).metrics := by
  show trendsTimestamped (rv.others.foldl _ _)
  apply foldlPreserve (P := trendsTimestamped)
  · intro m kv hm
    exact trendsTimestamped_addNumericSample m kv.1 kv.2 ts _ sh hm
  · split
    · exact trendsTimestamped_addBloodPressureSample _ rv ts _ sh h
    · exact h

theorem trendsTimestamped_processSheet (now : Int) (agg : Agg) (name : String) (rows : Sheet)
    (h : trendsTimestamped agg.metrics) :
    trendsTimestamped (processSheet now agg name rows).metrics := by
  unfold processSheet
  split
  · exact h
  · cases hfh : findHeaderRow rows with
    | none => exact h
    | some hi =>
      simp only
      split
      · exact h
      · apply foldlPreserve (P := fun (a : Agg) => trendsTimestamped a.metrics)
        · intro a row ha
          rw [updateRawCollections_metrics]
          exact trendsTimestamped_applyRowValues _ _ _ _ ha
        · exact h

theorem trendsTimestamped_finalizeTrends (m : Metrics) (h : trendsTimestamped m) :
    trendsTimestamped (finalizeTrends m) := by
  intro kv hkv e hke
  unfold finalizeTrends at hkv
  obtain ⟨kv0, hkv0, heq⟩ := List.mem_map.mp hkv
  by_cases hemp : kv0.2.isEmpty
  · rw [if_pos hemp] at heq
    subst heq
    exact h kv0 hkv0 e hke
  · rw [if_neg hemp] at heq
    subst heq
    exact h kv0 hkv0 e (mem_sortTrend _ _ (by simpa using hke))

theorem trendsTimestamped_empty : trendsTimestamped createEmptyMetrics := by
  intro kv hkv e hke
  have hall : ∀ kv ∈ createEmptyMetrics.trends, kv.2 = [] := by decide
  rw [hall kv hkv] at hke
  cases hke

theorem trendsTimestamped_parseWorkbook (now : Int) (meta : ExcelMeta)
    (workbook : List (String × Sheet)) :
    trendsTimestamped (parseWorkbook now meta workbook).metrics := by
  show trendsTimestamped (finalizeTrends _)
  apply trendsTimestamped_finalizeTrends
  apply foldlPreserve (P := fun (a : Agg) => trendsTimestamped a.metrics)
  · intro a sheet ha
    exact trendsTimestamped_processSheet now a sheet.1 sheet.2 ha
  · exact trendsTimestamped_empty

theorem inRangeOf_of_guards (d : ParamDef) (v : ℚ) (hb : belowMin d v = false)
    (ha : aboveMax d v = false) : inRangeOf d v := by
  constructor
  · intro mn hmn
    unfold belowMin at hb
    rw [hmn] at hb
    have : ¬ (v < mn) := by simpa using hb
    exact le_of_not_lt this
  · intro mx hmx
    unfold aboveMax at ha
    rw [hmx] at ha
    have : ¬ (mx < v) := by simpa using ha
    exact le_of_not_lt this

theorem addNumericSample_latest (m : Metrics) (key : String) (v : ℚ) (ts : Option Int)
    (ord : Nat) (sh : String) :
    (addNumericSample m key v ts ord sh).latest = m.latest ∨
    (∃ d, PARAMETER_META key = some d ∧ belowMin d v = false ∧ aboveMax d v = false ∧
      (addNumericSample m key v ts ord sh).latest =
        objSet m.latest key (some (LatestVal.num v ts d.unit ord))) := by
  unfold addNumericSample
  cases hd : PARAMETER_META key with
  | none => exact Or.inl rfl
  | some d =>
    dsimp only
    by_cases hb : belowMin d v = true
    · rw [if_pos hb]
      exact Or.inl rfl
    · rw [if_neg hb]
      by_cases ha : aboveMax d v = true
      · rw [if_pos ha]
        exact Or.inl rfl
      · rw [if_neg ha]
        by_cases ht : d.timeline = true ∧ ts.isSome = true
        · rw [if_pos ht]
          split
          · exact Or.inr ⟨d, rfl, Bool.eq_false_iff.mpr hb, Bool.eq_false_iff.mpr ha, rfl⟩
          · exact Or.inl rfl
        · rw [if_neg ht]
          split
          · exact Or.inr ⟨d, rfl, Bool.eq_false_iff.mpr hb, Bool.eq_false_iff.mpr ha, rfl⟩
          · exact Or.inl rfl

theorem metricsInRange_addNumericSample (m : Metrics) (key : String) (v : ℚ)
    (ts : Option Int) (ord : Nat) (sh : String) (h : metricsInRange m) :
    metricsInRange (addNumericSample m key v ts ord sh) := by
  constructor
  · rcases addNumericSample_latest m key v ts ord sh with he | ⟨d, hd, hb, ha, he⟩
    · rw [he]
      exact h.1
    · rw [he]
      intro kv hkv lv hlv
      rcases mem_objSet _ _ _ _ hkv with h1 | h1
      · subst h1
        have hlv2 := Option.some.inj hlv
        subst hlv2
        intro d2 hd2
        rw [hd] at hd2
        cases Option.some.inj hd2
        exact inRangeOf_of_guards d v hb ha
      · exact h.1 kv h1 lv hlv
  · rcases addNumericSample_trends m key v ts ord sh with he | ⟨d, hd, _, _, hb, ha, he⟩
    · rw [he]
      exact h.2
    · rw [he]
      intro kv hkv e hke
      rcases mem_objSet _ _ _ _ hkv with h1 | h1
      · subst h1
        rcases List.mem_append.mp hke with h2 | h2
        · cases hg : objGet m.trends key with
          | none => rw [hg] at h2; simp at h2
          | some es =>
            rw [hg] at h2
            exact h.2 (key, es) (objGet_mem _ _ _ hg) e (by simpa using h2)
        · simp at h2
          subst h2
          intro d2 hd2
          rw [hd] at hd2
          cases Option.some.inj hd2
          exact inRangeOf_of_guards d v hb ha
      · exact h.2 kv h1 e hke

theorem metricsInRange_pushBPTrend (m : Metrics) (s d0 : ℚ) (ts : Option Int) (sh : String)
    (h : metricsInRange m) (hs : 40 ≤ s ∧ s ≤ 300) (hd : 20 ≤ d0 ∧ d0 ≤ 200) :
    metricsInRange (Metrics.mk m.latest
      (objSet m.trends "bloodPressure"
        (((objGet m.trends "bloodPressure").getD []) ++ [TrendEntry.tbp s d0 ts sh]))) := by
  constructor
  · exact h.1
  · intro kv hkv e hke
    rcases mem_objSet _ _ _ _ hkv with hkv1 | hkv1
    · subst hkv1
      rcases List.mem_append.mp hke with h2 | h2
      · cases hg : objGet m.trends "bloodPressure" with
        | none => rw [hg] at h2; simp at h2
        | some es =>
          rw [hg] at h2
          exact h.2 _ (objGet_mem _ _ _ hg) e (by simpa using h2)
      · simp at h2
        subst h2
        exact ⟨hs.1, hs.2, hd.1, hd.2⟩
    · exact h.2 kv hkv1 e hke

theorem metricsInRange_bpFinal (m1 : Metrics) (os od : Option ℚ) (ts : Option Int) (ord : Nat)
    (h : metricsInRange m1)
    (hsB : ∀ s, os = some s → 40 ≤ s ∧ s ≤ 300)
    (hdB : ∀ d0, od = some d0 → 20 ≤ d0 ∧ d0 ≤ 200) :
    metricsInRange (
      if shouldReplaceLatest ((objGet m1.latest "bloodPressure").bind id) ts ord then
        Metrics.mk
          (objSet m1.latest "bloodPressure"
            (some (LatestVal.bp
              (os.orElse (fun _ =>
                (((objGet m1.latest "bloodPressure").bind id).map
                  LatestVal.bpSys).getD none))
              (od.orElse (fun _ =>
                (((objGet m1.latest "bloodPressure").bind id).map
                  LatestVal.bpDia).getD none))
              "mmHg" ts ord)))
          m1.trends
      else m1) := by
  split
  · constructor
    · intro kv hkv lv hlv
      rcases mem_objSet _ _ _ _ hkv with hkv1 | hkv1
      · subst hkv1
        have hlv2 := Option.some.inj hlv
        subst hlv2
        constructor
        · intro x hx
          cases hsv : os with
          | some s =>
            rw [hsv] at hx
            simp [Option.orElse] at hx
            rw [← hx]
            exact hsB s hsv
          | none =>
            rw [hsv] at hx
            replace hx : (((objGet m1.latest "bloodPressure").bind id).map
                LatestVal.bpSys).getD none = some x := hx
            cases hg : objGet m1.latest "bloodPressure" with
            | none =>
              rw [hg] at hx
              exact absurd (show (none : Option ℚ) = some x from hx) (by simp)
            | some olv =>
              rw [hg] at hx
              cases olv with
              | none => exact absurd (show (none : Option ℚ) = some x from hx) (by simp)
              | some lv0 =>
                replace hx : LatestVal.bpSys lv0 = some x := hx
                have hok := h.1 _ (objGet_mem _ _ _ hg) lv0 rfl
                cases lv0 with
                | num v t u o => simp [LatestVal.bpSys] at hx
                | bp s0 dd u t o => exact hok.1 x hx
        · intro x hx
          cases hsv : od with
          | some d0 =>
            rw [hsv] at hx
            simp [Option.orElse] at hx
            rw [← hx]
            exact hdB d0 hsv
          | none =>
            rw [hsv] at hx
            replace hx : (((objGet m1.latest "bloodPressure").bind id).map
                LatestVal.bpDia).getD none = some x := hx
            cases hg : objGet m1.latest "bloodPressure" with
            | none =>
              rw [hg] at hx
              exact absurd (show (none : Option ℚ) = some x from hx) (by simp)
            | some olv =>
              rw [hg] at hx
              cases olv with
              | none => exact absurd (show (none : Option ℚ) = some x from hx) (by simp)
              | some lv0 =>
                replace hx : LatestVal.bpDia lv0 = some x := hx
                have hok := h.1 _ (objGet_mem _ _ _ hg) lv0 rfl
                cases lv0 with
                | num v t u o => simp [LatestVal.bpDia] at hx
                | bp s0 dd u t o => exact hok.2 x hx
      · exact h.1 kv hkv1 lv hlv
    · exact h.2
  · exact h

theorem metricsInRange_addBloodPressureSample (m : Metrics) (rv : RowValues) (ts : Option Int)
    (ord : Nat) (sh : String) (h : metricsInRange m) :
    metricsInRange (addBloodPressureSample m rv ts ord sh) := by
  unfold addBloodPressureSample
  by_cases h1 : rv.systolic.any (fun s => decide (s < 40 ∨ s > 300)) = true
  · rw [if_pos h1]
    exact h
  · rw [if_neg h1]
    by_cases h2 : rv.diastolic.any (fun d => decide (d < 20 ∨ d > 200)) = true
    · rw [if_pos h2]
      exact h
    · rw [if_neg h2]
      by_cases h3 : rv.systolic = none ∧ rv.diastolic = none
      · rw [if_pos h3]
        exact h
      · rw [if_neg h3]
        have hsB : ∀ s, rv.systolic = some s → 40 ≤ s ∧ s ≤ 300 := by
          intro s hs
          have hns : ¬ (s < 40 ∨ s > 300) := by
            intro hc
            apply h1
            rw [hs]
            simpa using hc
          exact ⟨le_of_not_lt (fun hc => hns (Or.inl hc)),
            le_of_not_lt (fun hc => hns (Or.inr hc))⟩
        have hdB : ∀ d0, rv.diastolic = some d0 → 20 ≤ d0 ∧ d0 ≤ 200 := by
          intro d0 hd
          have hnd : ¬ (d0 < 20 ∨ d0 > 200) := by
            intro hc
            apply h2
            rw [hd]
            simpa using hc
          exact ⟨le_of_not_lt (fun hc => hnd (Or.inl hc)),
            le_of_not_lt (fun hc => hnd (Or.inr hc))⟩
        cases hts : ts with
        | none =>
          cases hs : rv.systolic with
          | none =>
            cases hd : rv.diastolic with
            | none => exact absurd ⟨hs, hd⟩ h3
            | some d0 =>
              simp only [hs, hd]
              exact metricsInRange_bpFinal m none (some d0) none ord h
                (fun x hx => Option.noConfusion hx)
                (fun x hx => by cases Option.some.inj hx; exact hdB d0 hd)
          | some s =>
            cases hd : rv.diastolic with
            | none =>
              simp only [hs, hd]
              exact metricsInRange_bpFinal m (some s) none none ord h
                (fun x hx => by cases Option.some.inj hx; exact hsB s hs)
                (fun x hx => Option.noConfusion hx)
            | some d0 =>
              simp only [hs, hd]
              exact metricsInRange_bpFinal m (some s) (some d0) none ord h
                (fun x hx => by cases Option.some.inj hx; exact hsB s hs)
                (fun x hx => by cases Option.some.inj hx; exact hdB d0 hd)
        | some t =>
          cases hs : rv.systolic with
          | none =>
            cases hd : rv.diastolic with
            | none => exact absurd ⟨hs, hd⟩ h3
            | some d0 =>
              simp only [hs, hd]
              exact metricsInRange_bpFinal m none (some d0) (some t) ord h
                (fun x hx => Option.noConfusion hx)
                (fun x hx => by cases Option.some.inj hx; exact hdB d0 hd)
          | some s =>
            cases hd : rv.diastolic with
            | none =>
              simp only [hs, hd]
              exact metricsInRange_bpFinal m (some s) none (some t) ord h
                (fun x hx => by cases Option.some.inj hx; exact hsB s hs)
                (fun x hx => Option.noConfusion hx)
            | some d0 =>
              simp only [hs, hd]
              exact metricsInRange_bpFinal
                (Metrics.mk m.latest
                  (objSet m.trends "bloodPressure"
                    (((objGet m.trends "bloodPressure").getD []) ++
                      [TrendEntry.tbp s d0 (some t) sh])))
                (some s) (some d0) (some t) ord
                (metricsInRange_pushBPTrend m s d0 (some t) sh h (hsB s hs) (hdB d0 hd))
                (fun x hx => by cases Option.some.inj hx; exact hsB s hs)
                (fun x hx => by cases Option.some.inj hx; exact hdB d0 hd)

theorem metricsInRange_applyRowValues (agg : Agg) (rv : RowValues) (ts : Option Int)
    (sh : String) (h : metricsInRange agg.metrics) :
    metricsInRange (applyRowValues agg rv ts sh).metrics := by
  show metricsInRange (rv.others.foldl _ _)
  apply foldlPreserve (P := metricsInRange)
  · intro m kv hm
    exact metricsInRange_addNumericSample m kv.1 kv.2 ts _ sh hm
  · split
    · exact metricsInRange_addBloodPressureSample _ rv ts _ sh h
    · exact h

theorem metricsInRange_processSheet (now : Int) (agg : Agg) (name : String) (rows : Sheet)
    (h : metricsInRange agg.metrics) :
    metricsInRange (processSheet now agg name rows).metrics := by
  unfold processSheet
  split
  · exact h
  · cases hfh : findHeaderRow rows with
    | none => exact h
    | some hi =>
      simp only
      split
      · exact h
      · apply foldlPreserve (P := fun (a : Agg) => metricsInRange a.metrics)
        · intro a row ha
          rw [updateRawCollections_metrics]
          exact metricsInRange_applyRowValues _ _ _ _ ha
        · exact h

theorem metricsInRange_finalizeTrends (m : Metrics) (h : metricsInRange m) :
    metricsInRange (finalizeTrends m) := by
  constructor
  · exact h.1
  · intro kv hkv e hke
    unfold finalizeTrends at hkv
    obtain ⟨kv0, hkv0, heq⟩ := List.mem_map.mp hkv
    by_cases hemp : kv0.2.isEmpty
    · rw [if_pos hemp] at heq
      subst heq
      exact h.2 kv0 hkv0 e hke
    · rw [if_neg hemp] at heq
      subst heq
      exact h.2 kv0 hkv0 e (mem_sortTrend _ _ (by simpa using hke))

theorem metricsInRange_empty : metricsInRange createEmptyMetrics := by
  constructor
  · intro kv hkv lv hlv
    have hall : ∀ kv ∈ createEmptyMetrics.latest, kv.2 = none := by decide
    rw [hall kv hkv] at hlv
    cases hlv
  · intro kv hkv e hke
    have hall : ∀ kv ∈ createEmptyMetrics.trends, kv.2 = [] := by decide
    rw [hall kv hkv] at hke
    cases hke

theorem metricsInRange_parseWorkbook (now : Int) (meta : ExcelMeta)
    (workbook : List (String × Sheet)) :
    metricsInRange (parseWorkbook now meta workbook).metrics := by
  show metricsInRange (finalizeTrends _)
  apply metricsInRange_finalizeTrends
  apply foldlPreserve (P := fun (a : Agg) => metricsInRange a.metrics)
  · intro a sheet ha
    exact metricsInRange_processSheet now a sheet.1 sheet.2 ha
  · exact metricsInRange_empty

theorem deriveTimestamp_congr (n1 n2 : Int) (row : Row) (descriptors : List Descriptor)
    (h : rowUsesNow descriptors row = false) :
    deriveTimestamp n1 row descriptors = deriveTimestamp n2 row descriptors := by
  unfold deriveTimestamp
  cases hdt : firstRoleDate Role.datetime row descriptors with
  | some v => rfl
  | none =>
    cases hdp : firstRoleDate Role.date row descriptors with
    | some dp =>
      cases htp : firstRoleTime row descriptors <;> rfl
    | none =>
      cases htp : firstRoleTime row descriptors with
      | none => rfl
      | some tp =>
        exfalso
        rw [rowUsesNow, hdt, hdp, htp] at h
        simp at h

theorem processSheet_congr (n1 n2 : Int) (agg : Agg) (name : String) (rows : Sheet)
    (h : sheetUsesNow rows = false) :
    processSheet n1 agg name rows = processSheet n2 agg name rows := by
  unfold processSheet
  split
  · rfl
  · cases hfh : findHeaderRow rows with
    | none => rfl
    | some hi =>
      simp only
      split
      · rfl
      · apply foldlCongr
        intro a row hrow
        have hnr : rowUsesNow (describeColumns hi.2 rows hi.1) row = false := by
          unfold sheetUsesNow at h
          rw [hfh] at h
          simp only [List.any_eq_false] at h
          exact Bool.eq_false_iff.mpr (h row hrow)
        rw [deriveTimestamp_congr n1 n2 row _ hnr]

theorem parseWorkbook_congr (n1 n2 : Int)
    (workbook : List (String × Sheet)) (hw : workbookUsesNow workbook = false) :
    workbook.foldl (fun a sheet => processSheet n1 a sheet.1 sheet.2) createAggregation =
      workbook.foldl (fun a sheet => processSheet n2 a sheet.1 sheet.2) createAggregation := by
  apply foldlCongr
  intro a sheet hsheet
  apply processSheet_congr
  unfold workbookUsesNow at hw
  rw [List.any_eq_false] at hw
  exact Bool.eq_false_iff.mpr (hw sheet hsheet)

theorem findHeaderScan_spec (l : List Row) (start : Nat) (b : Int × Int) :
    (findHeaderScan l start b = b ∧
      ∀ k, k < l.length → ((rowScore (l.getD k [])) : Int) ≤ b.2) ∨
    (∃ k, k < l.length ∧
      (findHeaderScan l start b).1 = ((start + k : Nat) : Int) ∧
      (findHeaderScan l start b).2 = ((rowScore (l.getD k [])) : Int) ∧
      b.2 < (findHeaderScan l start b).2 ∧
      (∀ j, j < k → ((rowScore (l.getD j [])) : Int) < (findHeaderScan l start b).2) ∧
      (∀ j, j < l.length → ((rowScore (l.getD j [])) : Int) ≤ (findHeaderScan l start b).2)) := by
  induction l generalizing start b with
  | nil =>
    left
    exact ⟨rfl, fun k hk => absurd hk (by simp)⟩
  | cons row rest ih =>
    have hstep : ∀ b2 : Int × Int, findHeaderScan (row :: rest) start b2 =
        findHeaderScan rest (start + 1)
          (if ((rowScore row : Int) > b2.2) then ((start : Int), (rowScore row : Int))
           else b2) := fun _ => rfl
    by_cases hgt : ((rowScore row : Int) > b.2)
    · rw [hstep b, if_pos hgt]
      rcases ih (start + 1) ((start : Int), (rowScore row : Int)) with ⟨heq, hbound⟩ |
        ⟨k, hk, h1, h2, h3, h4, h5⟩
      · right
        refine ⟨0, by simp, ?_, ?_, ?_, ?_, ?_⟩
        · rw [heq]
          simp
        · rw [heq]
          simp
        · rw [heq]
          exact hgt
        · intro j hj
          exact absurd hj (by omega)
        · intro j hj
          rw [heq]
          cases j with
          | zero => simp
          | succ j =>
            rw [List.getD_cons_succ]
            exact hbound j (by simpa using hj)
      · right
        refine ⟨k + 1, by simpa using hk, ?_, ?_, ?_, ?_, ?_⟩
        · rw [h1]
          congr 1
          omega
        · rw [h2, List.getD_cons_succ]
        · exact lt_trans hgt h3
        · intro j hj
          cases j with
          | zero =>
            rw [List.getD_cons_zero]
            exact h3
          | succ j =>
            rw [List.getD_cons_succ]
            exact h4 j (by omega)
        · intro j hj
          cases j with
          | zero =>
            rw [List.getD_cons_zero]
            exact le_of_lt h3
          | succ j =>
            rw [List.getD_cons_succ]
            exact h5 j (by simpa using hj)
    · rw [hstep b, if_neg hgt]
      rcases ih (start + 1) b with ⟨heq, hbound⟩ | ⟨k, hk, h1, h2, h3, h4, h5⟩
      · left
        refine ⟨heq, ?_⟩
        intro j hj
        cases j with
        | zero =>
          rw [List.getD_cons_zero]
          exact not_lt.mp hgt
        | succ j =>
          rw [List.getD_cons_succ]
          exact hbound j (by simpa using hj)
      · right
        refine ⟨k + 1, by simpa using hk, ?_, ?_, ?_, ?_, ?_⟩
        · rw [h1]
          congr 1
          omega
        · rw [h2, List.getD_cons_succ]
        · exact h3
        · intro j hj
          cases j with
          | zero =>
            rw [List.getD_cons_zero]
            exact lt_of_le_of_lt (not_lt.mp hgt) h3
          | succ j =>
            rw [List.getD_cons_succ]
            exact h4 j (by omega)
        · intro j hj
          cases j with
          | zero =>
            rw [List.getD_cons_zero]
            exact le_of_lt (lt_of_le_of_lt (not_lt.mp hgt) h3)
          | succ j =>
            rw [List.getD_cons_succ]
            exact h5 j (by simpa using hj)

theorem foldl_add_shift (f : Cell → Nat) (l : List Cell) (n : Nat) :
    l.foldl (fun acc c => acc + f c) n = n + l.foldl (fun acc c => acc + f c) 0 := by
  induction l generalizing n with
  | nil => simp
  | cons c cs ih =>
    rw [List.foldl_cons, List.foldl_cons, ih (n + f c), ih (0 + f c)]
    omega

theorem rowScore_cons (c : Cell) (row : Row) :
    rowScore (c :: row) = cellScore c + rowScore row := by
  unfold rowScore
  rw [List.foldl_cons, foldl_add_shift]
  omega

theorem getD_take_20 (rows : Sheet) (j : Nat) (hj : j < 20) :
    (rows.take 20).getD j [] = rows.getD j [] := by
  rw [List.getD_eq_getElem?_getD, List.getD_eq_getElem?_getD, List.getElem?_take_of_lt hj]

/-- C4: for every sheet, the header detector scans at most the first 20 rows,
scores each row as 2 per string cell with non-blank content plus 1 per other
non-empty cell, and selects the row with the maximum score, resolving ties to
the lowest row index; if the maximum score is 0 or the sheet is empty, no
header is found and the sheet contributes nothing to the aggregation without
raising an error. -/
theorem C4_header_detector :
    (∀ row : Row, rowScore row =
      2 * row.countP (fun c => match c with
        | Cell.cstr s => decide (trimStr s ≠ "")
        | _ => false) +
      row.countP (fun c => match c with
        | Cell.cstr s => decide (trimStr s = "" ∧ s ≠ "")
        | Cell.cnull => false
        | _ => true)) ∧
    (∀ rows : Sheet, findHeaderRow rows = none ↔
      (rows = [] ∨ ∀ j, j < min 20 rows.length → rowScore (rows.getD j []) = 0)) ∧
    (∀ rows : Sheet, ∀ i : Nat, ∀ headers : List String,
      findHeaderRow rows = some (i, headers) →
      i < min 20 rows.length ∧
      (∀ j, j < min 20 rows.length → rowScore (rows.getD j []) ≤ rowScore (rows.getD i [])) ∧
      (∀ j, j < i → rowScore (rows.getD j []) < rowScore (rows.getD i [])) ∧
      0 < rowScore (rows.getD i []) ∧
      headers = mkHeaders (rows.getD i [])) ∧
    (∀ now : Int, ∀ agg : Agg, ∀ name : String, ∀ rows : Sheet,
      findHeaderRow rows = none → processSheet now agg name rows = agg) := by
  have key : ∀ rows : Sheet,
      (findHeaderRow rows = none ↔
        (rows = [] ∨ ∀ j, j < min 20 rows.length → rowScore (rows.getD j []) = 0)) ∧
      (∀ i headers, findHeaderRow rows = some (i, headers) →
        i < min 20 rows.length ∧
        (∀ j, j < min 20 rows.length → rowScore (rows.getD j []) ≤ rowScore (rows.getD i [])) ∧
        (∀ j, j < i → rowScore (rows.getD j []) < rowScore (rows.getD i [])) ∧
        0 < rowScore (rows.getD i []) ∧
        headers = mkHeaders (rows.getD i [])) := by
    intro rows
    have hlen : (rows.take 20).length = min 20 rows.length := List.length_take 20 rows
    rcases findHeaderScan_spec (rows.take 20) 0 (-1, -1) with ⟨heq, hbound⟩ |
      ⟨k, hk, h1, h2, h3, h4, h5⟩
    · have hempty : rows = [] := by
        by_contra hne
        have hpos : 0 < (rows.take 20).length := by
          rw [hlen]
          have := List.length_pos.mpr hne
          omega
        have hle := hbound 0 hpos
        have hge : (0 : Int) ≤ ((rowScore ((rows.take 20).getD 0 [])) : Int) :=
          Int.natCast_nonneg _
        omega
      have hnone : findHeaderRow rows = none := by
        unfold findHeaderRow
        rw [heq]
        simp
      constructor
      · rw [hnone]
        simp [hempty]
      · intro i headers hsome
        rw [hnone] at hsome
        cases hsome
    · have hk20 : k < 20 := by
        have := List.length_take_le 20 rows
        omega
      have hkmin : k < min 20 rows.length := by omega
      have hgetk : (rows.take 20).getD k [] = rows.getD k [] := getD_take_20 rows k hk20
      have h1' : (findHeaderScan (rows.take 20) 0 (-1, -1)).1 = (k : Int) := by
        rw [h1]
        simp
      have hfr : findHeaderRow rows =
          (if (findHeaderScan (rows.take 20) 0 (-1, -1)).1 = -1 ∨
              (findHeaderScan (rows.take 20) 0 (-1, -1)).2 = 0 then none
           else some ((findHeaderScan (rows.take 20) 0 (-1, -1)).1.toNat,
             mkHeaders ((rows.get? (findHeaderScan (rows.take 20) 0 (-1, -1)).1.toNat).getD
               []))) := rfl
      have hne1 : ¬ ((findHeaderScan (rows.take 20) 0 (-1, -1)).1 = -1) := by
        rw [h1']
        omega
      by_cases hz : (findHeaderScan (rows.take 20) 0 (-1, -1)).2 = 0
      · have hnone : findHeaderRow rows = none := by
          rw [hfr, if_pos (Or.inr hz)]
        constructor
        · rw [hnone]
          constructor
          · intro _
            right
            intro j hj
            have hj20 : j < 20 := by omega
            have := h5 j (by omega)
            rw [getD_take_20 rows j hj20] at this
            rw [hz] at this
            have hge : (0 : Int) ≤ ((rowScore (rows.getD j [])) : Int) := Int.natCast_nonneg _
            omega
          · intro _
            rfl
        · intro i headers hsome
          rw [hnone] at hsome
          cases hsome
      · have hsome : findHeaderRow rows =
            some (k, mkHeaders ((rows.get? k).getD [])) := by
          rw [hfr, if_neg (by push_neg; exact ⟨hne1, hz⟩)]
          rw [h1']
          simp
        have hscorek : 0 < rowScore (rows.getD k []) := by
          rw [h2, hgetk] at hz
          have : rowScore (rows.getD k []) ≠ 0 := by
            intro hc
            apply hz
            rw [hc]
            simp
          omega
        constructor
        · rw [hsome]
          constructor
          · intro hc
            cases hc
          · intro hc
            rcases hc with hc | hc
            · subst hc
              simp at hk
            · have := hc k hkmin
              omega
        · intro i headers hisome
          rw [hsome] at hisome
          have hik : i = k ∧ headers = mkHeaders ((rows.get? k).getD []) := by
            have := Option.some.inj hisome
            exact ⟨(Prod.mk.injEq _ _ _ _).mp this |>.1.symm,
              ((Prod.mk.injEq _ _ _ _).mp this).2.symm⟩
          obtain ⟨rfl, hheaders⟩ := hik
          refine ⟨hkmin, ?_, ?_, hscorek, ?_⟩
          · intro j hj
            have hj20 : j < 20 := by omega
            have := h5 j (by omega)
            rw [getD_take_20 rows j hj20, h2, hgetk] at this
            exact_mod_cast this
          · intro j hj
            have hj20 : j < 20 := by omega
            have := h4 j hj
            rw [getD_take_20 rows j hj20, h2, hgetk] at this
            exact_mod_cast this
          · rw [hheaders]
            congr 1
  refine ⟨?_, fun rows => (key rows).1, fun rows i headers => (key rows).2 i headers, ?_⟩
  · intro row
    induction row with
    | nil => rfl
    | cons c cs ih =>
      rw [rowScore_cons, ih, List.countP_cons, List.countP_cons]
      cases c with
      | cnull => simp [cellScore]
      | cnum q =>
        simp [cellScore]
        omega
      | cdate t =>
        simp [cellScore]
        omega
      | cbool b =>
        simp [cellScore]
        omega
      | cstr s =>
        have h0 : trimStr "" = "" := rfl
        by_cases ht : trimStr s = ""
        · by_cases hs : s = ""
          · simp [cellScore, ht, hs, h0]
          · simp [cellScore, ht, hs]
            omega
        · simp [cellScore, ht]
          omega
  · intro now agg name rows hnone
    unfold processSheet
    split
    · rfl
    · rw [hnone]

/-! ### Claim theorems -/

/-- C1: latest-value replacement follows the stated total order for every
parameter — `shouldReplaceLatest` returns true exactly under the spec's four
clauses, a timestamped current value is kept against an untimestamped
candidate, and the sequence number is a file-scoped counter incremented
exactly once per processed data row (so with equal timestamps the
later-processed row, having `≥` on both comparisons, wins). -/
theorem C1_latest_replacement_order :
    (∀ (current : Option LatestVal) (timestamp : Option Int) (order : Nat),
      shouldReplaceLatest current timestamp order = true ↔
        latestOrderSpec current timestamp order) ∧
    (∀ (cur : LatestVal) (ct : Int) (order : Nat), cur.timestamp = some ct →
      shouldReplaceLatest (some cur) none order = false) ∧
    (∀ (agg : Agg) (rowValues : RowValues) (timestamp : Option Int) (sheetName : String),
      (applyRowValues agg rowValues timestamp sheetName).sampleSequence =
        agg.sampleSequence + 1) := by
  refine ⟨?_, ?_, ?_⟩
  · intro current timestamp order
    cases current with
    | none => simp [shouldReplaceLatest, latestOrderSpec]
    | some cur =>
      cases hts : timestamp with
      | none =>
        cases hct : cur.timestamp with
        | none =>
          simp only [shouldReplaceLatest, hct, latestOrderSpec, decide_eq_true_eq]
          constructor
          · intro hle
            exact Or.inr ⟨cur, rfl, Or.inr (Or.inr ⟨by simp, hct, hle⟩)⟩
          · intro hc
            rcases hc with hc | ⟨c, hc, hcase⟩
            · cases hc
            · cases Option.some.inj hc
              rcases hcase with ⟨t, ct, ht, _⟩ | ⟨hiss, _⟩ | ⟨_, _, hle⟩
              · cases ht
              · cases hiss
              · exact hle
        | some ct =>
          simp only [shouldReplaceLatest, hct, latestOrderSpec]
          constructor
          · intro hc
            cases hc
          · intro hc
            rcases hc with hc | ⟨c, hc, hcase⟩
            · cases hc
            · cases Option.some.inj hc
              rcases hcase with ⟨t, ct2, ht, _⟩ | ⟨hiss, _⟩ | ⟨hn, hct2, _⟩
              · cases ht
              · cases hiss
              · rw [hct] at hct2
                cases hct2
      | some t =>
        cases hct : cur.timestamp with
        | none =>
          simp only [shouldReplaceLatest, hct, latestOrderSpec]
          constructor
          · intro _
            exact Or.inr ⟨cur, rfl, Or.inr (Or.inl ⟨by simp, hct⟩)⟩
          · intro _
            trivial
        | some ct =>
          simp only [shouldReplaceLatest, hct, latestOrderSpec, decide_eq_true_eq]
          constructor
          · intro hle
            exact Or.inr ⟨cur, rfl, Or.inl ⟨t, ct, rfl, hct, hle⟩⟩
          · intro hc
            rcases hc with hc | ⟨c, hc, hcase⟩
            · cases hc
            · cases Option.some.inj hc
              rcases hcase with ⟨t2, ct2, ht2, hct2, hle⟩ | ⟨_, hctn⟩ | ⟨hn, _, _⟩
              · cases Option.some.inj ht2
                rw [hct] at hct2
                cases Option.some.inj hct2
                exact hle
              · rw [hct] at hctn
                cases hctn
              · cases hn
  · intro cur ct order hct
    simp [shouldReplaceLatest, hct]
  · intro agg rowValues timestamp sheetName
    rfl

/-- Witness for C1: a candidate with the same timestamp as the current value
replaces it, and an untimestamped candidate loses to a timestamped current
value. -/
theorem C1_latest_replacement_order_witness :
    shouldReplaceLatest (some (LatestVal.num 70 (some 5) "kg" 1)) (some 5) 2 = true ∧
    shouldReplaceLatest (some (LatestVal.num 70 (some 5) "kg" 1)) none 2 = false ∧
    (applyRowValues createAggregation {} none "S").sampleSequence = 1 := by
  refine ⟨?_, ?_, ?_⟩
  · exact (C1_latest_replacement_order.1 _ _ _).mpr
      (Or.inr ⟨_, rfl, Or.inl ⟨5, 5, rfl, rfl, le_refl 5⟩⟩)
  · exact C1_latest_replacement_order.2.1 _ 5 2 rfl
  · exact C1_latest_replacement_order.2.2 createAggregation {} none "S"

/-- C2: a numeric sample is appended to a registry parameter's trend list
only if that parameter's registry entry has the timeline flag set and a
non-null timestamp resolved; a blood-pressure trend entry likewise requires a
timestamp; consequently every entry in every trend list of every returned
result carries a non-null timestamp. -/
theorem C2_trend_timestamps :
    (∀ (m : Metrics) (key : String) (v : ℚ) (ts : Option Int) (ord : Nat) (sh : String)
      (d : ParamDef), PARAMETER_META key = some d →
      (d.timeline = false ∨ ts = none) →
      (addNumericSample m key v ts ord sh).trends = m.trends) ∧
    (∀ (m : Metrics) (rv : RowValues) (ord : Nat) (sh : String),
      (addBloodPressureSample m rv none ord sh).trends = m.trends) ∧
    (∀ (now : Int) (meta : ExcelMeta) (workbook : List (String × Sheet)),
      trendsTimestamped (parseWorkbook now meta workbook).metrics) := by
  refine ⟨?_, ?_, ?_⟩
  · intro m key v ts ord sh d hd hno
    rcases addNumericSample_trends m key v ts ord sh with he | ⟨d2, hd2, htl, hts, _, _, _⟩
    · exact he
    · exfalso
      rw [hd] at hd2
      cases Option.some.inj hd2
      rcases hno with hno | hno
      · rw [htl] at hno
        cases hno
      · rw [hno] at hts
        cases hts
  · intro m rv ord sh
    rcases addBloodPressureSample_trends m rv none ord sh with he | ⟨t, s, d0, hts, _⟩
    · exact he
    · cases hts
  · exact trendsTimestamped_parseWorkbook

/-- Witness for C2: an afBurden sample without a timestamp leaves the trends
untouched, an untimestamped blood-pressure row appends no trend entry, and a
concrete parsed workbook satisfies the trend-timestamp invariant. -/
theorem C2_trend_timestamps_witness :
    (addNumericSample createEmptyMetrics "afBurden" 50 none 1 "S").trends =
      createEmptyMetrics.trends ∧
    (addBloodPressureSample createEmptyMetrics
      { systolic := some 120, diastolic := some 80, others := [] } none 1 "S").trends =
      createEmptyMetrics.trends ∧
    trendsTimestamped (parseWorkbook 0 { name := some "a.xlsx", uploadedAt := some 0 }
      [("Blad1", [[Cell.cstr "Vikt", Cell.cstr "Datum"],
                  [Cell.cnum 70, Cell.cdate 86400000]])]).metrics := by
  refine ⟨?_, ?_, ?_⟩
  · exact C2_trend_timestamps.1 createEmptyMetrics "afBurden" 50 none 1 "S"
      { key := "afBurden", label := "AF-börda", unit := "%",
        matchers := ["af", "atrial fibrillation", "fibrillation", "rytm"],
        min := some 0, max := some 100, timeline := true }
      (by decide) (Or.inr rfl)
  · exact C2_trend_timestamps.2.1 createEmptyMetrics
      { systolic := some 120, diastolic := some 80, others := [] } 1 "S"
  · exact C2_trend_timestamps.2.2 0 { name := some "a.xlsx", uploadedAt := some 0 }
      [("Blad1", [[Cell.cstr "Vikt", Cell.cstr "Datum"],
                  [Cell.cnum 70, Cell.cdate 86400000]])]

/-- C3 counterexample: the claim that all paths produce one uniformly shaped
result with the error field as the only observable failure signal is false —
the fallback result omits the `sheetSummaries` property that every success
result carries, an observable difference beyond `error`. -/
theorem C3_uniform_shape_counterexample :
    (runWorker 0 { name := some "a.xlsx", uploadedAt := some 0 }
      (Except.error "corrupt bytes")).sheetSummaries = none ∧
    (runWorker 0 { name := some "a.xlsx", uploadedAt := some 0 }
      (Except.ok [("Blad1", [[Cell.cstr "Vikt"], [Cell.cnum 70]])])).sheetSummaries =
      some [{ sheetName := "Blad1", headerRowIndex := 0, headerRow := ["Vikt"],
              rowCount := 1 }] := by
  constructor
  · rfl
  · decide

/-- C3 amended: for every input, including undecodable bytes, the worker
returns a result and never lets an exception escape (the engine is a total
function); on structural failure the result is the fallback document — all
latest values null, all trend lists empty, empty raw data, and a non-null
error — while every success result has a null error; the shapes agree on
every field except that the fallback omits `sheetSummaries` (and copies the
metadata name without the default filename). -/
theorem C3_fallback_result (now : Int) (meta : ExcelMeta) (e : String) :
    runWorker now meta (Except.error e) = createFallbackExcelContent now meta ∧
    (∀ kv ∈ (runWorker now meta (Except.error e)).metrics.latest, kv.2 = none) ∧
    (∀ kv ∈ (runWorker now meta (Except.error e)).metrics.trends, kv.2 = []) ∧
    (runWorker now meta (Except.error e)).rawData = [] ∧
    (runWorker now meta (Except.error e)).error =
      some "Excel file could not be parsed automatically" ∧
    (∀ workbook, (runWorker now meta (Except.ok workbook)).error = none) := by
  refine ⟨rfl, ?_, ?_, rfl, rfl, ?_⟩
  · intro kv hkv
    have hall : ∀ kv ∈ createEmptyMetrics.latest, kv.2 = none := by decide
    exact hall kv hkv
  · intro kv hkv
    have hall : ∀ kv ∈ createEmptyMetrics.trends, kv.2 = [] := by decide
    exact hall kv hkv
  · intro workbook
    rfl

/-- Witness for C3 at a concrete failure. -/
theorem C3_fallback_result_witness :
    runWorker 7 { name := none, uploadedAt := none } (Except.error "bad zip") =
      createFallbackExcelContent 7 { name := none, uploadedAt := none } ∧
    (runWorker 7 { name := none, uploadedAt := none } (Except.error "bad zip")).error =
      some "Excel file could not be parsed automatically" ∧
    (runWorker 7 { name := none, uploadedAt := none } (Except.ok [])).error = none := by
  refine ⟨?_, ?_, ?_⟩
  · exact (C3_fallback_result 7 { name := none, uploadedAt := none } "bad zip").1
  · exact (C3_fallback_result 7 { name := none, uploadedAt := none } "bad zip").2.2.2.2.1
  · exact (C3_fallback_result 7 { name := none, uploadedAt := none } "bad zip").2.2.2.2.2 []

/-- Witness for C4 at concrete sheets: the detector picks the first row
(score 4 beats score 3) of a two-row sheet, and a sheet whose only cell is
null finds no header and leaves the aggregation untouched. -/
theorem C4_header_detector_witness :
    (∀ j, j < min 20 2 →
      rowScore ([[Cell.cstr "Vikt", Cell.cstr "Tid"],
        [Cell.cnum 70, Cell.cstr "12:00"]].getD j []) ≤
      rowScore ([[Cell.cstr "Vikt", Cell.cstr "Tid"],
        [Cell.cnum 70, Cell.cstr "12:00"]].getD 0 [])) ∧
    processSheet 0 createAggregation "S" [[Cell.cnull]] = createAggregation := by
  constructor
  · exact (C4_header_detector.2.2.1
      [[Cell.cstr "Vikt", Cell.cstr "Tid"], [Cell.cnum 70, Cell.cstr "12:00"]]
      0 ["Vikt", "Tid"] (by decide)).2.1
  · exact C4_header_detector.2.2.2 0 createAggregation "S" [[Cell.cnull]] (by decide)

/-- C5: blood pressure is aggregated as a partial pair — when a row yields
only a systolic (resp. only a diastolic) value, replacing the latest
blood-pressure value merges the incoming side with the previously retained
value of the missing side (an absent side never overwrites a retained one),
and a blood-pressure trend entry is appended exactly when both sides resolve
in the same row and that row has a timestamp. -/
theorem C5_bp_partial_pair :
    (∀ (m : Metrics) (rv : RowValues) (ts : Option Int) (ord : Nat) (sh : String) (s : ℚ)
      (cur : Option LatestVal),
      rv.systolic = some s → rv.diastolic = none → 40 ≤ s → s ≤ 300 →
      (objGet m.latest "bloodPressure").bind id = cur →
      shouldReplaceLatest cur ts ord = true →
      objGet (addBloodPressureSample m rv ts ord sh).latest "bloodPressure" =
        some (some (LatestVal.bp (some s) ((cur.map LatestVal.bpDia).getD none)
          "mmHg" ts ord))) ∧
    (∀ (m : Metrics) (rv : RowValues) (ts : Option Int) (ord : Nat) (sh : String) (d0 : ℚ)
      (cur : Option LatestVal),
      rv.systolic = none → rv.diastolic = some d0 → 20 ≤ d0 → d0 ≤ 200 →
      (objGet m.latest "bloodPressure").bind id = cur →
      shouldReplaceLatest cur ts ord = true →
      objGet (addBloodPressureSample m rv ts ord sh).latest "bloodPressure" =
        some (some (LatestVal.bp ((cur.map LatestVal.bpSys).getD none) (some d0)
          "mmHg" ts ord))) ∧
    (∀ (m : Metrics) (rv : RowValues) (t : Int) (ord : Nat) (sh : String) (s d0 : ℚ),
      rv.systolic = some s → rv.diastolic = some d0 →
      40 ≤ s → s ≤ 300 → 20 ≤ d0 → d0 ≤ 200 →
      objGet (addBloodPressureSample m rv (some t) ord sh).trends "bloodPressure" =
        some (((objGet m.trends "bloodPressure").getD []) ++
          [TrendEntry.tbp s d0 (some t) sh])) ∧
    (∀ (m : Metrics) (rv : RowValues) (ts : Option Int) (ord : Nat) (sh : String),
      (rv.systolic = none ∨ rv.diastolic = none ∨ ts = none) →
      (addBloodPressureSample m rv ts ord sh).trends = m.trends) := by
  refine ⟨?_, ?_, ?_, ?_⟩
  · intro m rv ts ord sh s cur hs hd hs1 hs2 hcur hrep
    unfold addBloodPressureSample
    rw [hs, hd]
    have hg1 : Option.any (fun x => decide (x < 40 ∨ x > 300)) (some s) = false := by
      simp only [Option.any_some, decide_eq_false_iff_not]
      rintro (hc | hc) <;> linarith
    rw [if_neg (by rw [hg1]; simp)]
    rw [if_neg (by simp)]
    rw [if_neg (by simp)]
    cases ts with
    | none =>
      simp only
      rw [hcur, if_pos hrep, objGet_objSet_self]
      rfl
    | some t =>
      simp only
      rw [hcur, if_pos hrep, objGet_objSet_self]
      rfl
  · intro m rv ts ord sh d0 cur hs hd hd1 hd2 hcur hrep
    unfold addBloodPressureSample
    rw [hs, hd]
    have hg2 : Option.any (fun x => decide (x < 20 ∨ x > 200)) (some d0) = false := by
      simp only [Option.any_some, decide_eq_false_iff_not]
      rintro (hc | hc) <;> linarith
    rw [if_neg (by simp)]
    rw [if_neg (by rw [hg2]; simp)]
    rw [if_neg (by simp)]
    cases ts with
    | none =>
      simp only
      rw [hcur, if_pos hrep, objGet_objSet_self]
      rfl
    | some t =>
      simp only
      rw [hcur, if_pos hrep, objGet_objSet_self]
      rfl
  · intro m rv t ord sh s d0 hs hd hs1 hs2 hd1 hd2
    unfold addBloodPressureSample
    rw [hs, hd]
    have hg1 : Option.any (fun x => decide (x < 40 ∨ x > 300)) (some s) = false := by
      simp only [Option.any_some, decide_eq_false_iff_not]
      rintro (hc | hc) <;> linarith
    have hg2 : Option.any (fun x => decide (x < 20 ∨ x > 200)) (some d0) = false := by
      simp only [Option.any_some, decide_eq_false_iff_not]
      rintro (hc | hc) <;> linarith
    rw [if_neg (by rw [hg1]; simp)]
    rw [if_neg (by rw [hg2]; simp)]
    rw [if_neg (by simp)]
    simp only
    split <;> rw [objGet_objSet_self]
  · intro m rv ts ord sh hmiss
    rcases addBloodPressureSample_trends m rv ts ord sh with he | ⟨t, s, d0, ht, hs, hd, _⟩
    · exact he
    · exfalso
      rcases hmiss with hc | hc | hc
      · rw [hc] at hs
        cases hs
      · rw [hc] at hd
        cases hd
      · rw [hc] at ht
        cases ht

/-- Witness for C5: a systolic-only row merges with the retained diastolic of
the current latest value, and a complete timestamped row appends one trend
entry. -/
theorem C5_bp_partial_pair_witness :
    objGet (addBloodPressureSample
      { latest := [("bloodPressure",
          some (LatestVal.bp (some 110) (some 70) "mmHg" (some 5) 1))],
        trends := [("bloodPressure", [])] }
      { systolic := some 120, diastolic := none, others := [] } (some 9) 2 "S").latest
      "bloodPressure" =
      some (some (LatestVal.bp (some 120) (some 70) "mmHg" (some 9) 2)) ∧
    objGet (addBloodPressureSample createEmptyMetrics
      { systolic := some 120, diastolic := some 80, others := [] } (some 9) 1 "S").trends
      "bloodPressure" = some [TrendEntry.tbp 120 80 (some 9) "S"] := by
  constructor
  · exact C5_bp_partial_pair.1
      { latest := [("bloodPressure",
          some (LatestVal.bp (some 110) (some 70) "mmHg" (some 5) 1))],
        trends := [("bloodPressure", [])] }
      { systolic := some 120, diastolic := none, others := [] } (some 9) 2 "S" 120
      (some (LatestVal.bp (some 110) (some 70) "mmHg" (some 5) 1))
      rfl rfl (by norm_num) (by norm_num) rfl (by decide)
  · exact C5_bp_partial_pair.2.2.1 createEmptyMetrics
      { systolic := some 120, diastolic := some 80, others := [] } 9 1 "S" 120 80
      rfl rfl (by norm_num) (by norm_num) (by norm_num) (by norm_num)

/-- C6: every numeric value accepted into the result's metrics (latest values
and trend entries, for every parameter) lies within that parameter's declared
plausibility range, with the blood-pressure pair checked against the literal
systolic `[40,300]` and diastolic `[20,200]` bounds, which coincide with the
registry's entries; an out-of-range numeric value is silently dropped — the
metrics are returned unchanged and no error is signalled. -/
theorem C6_plausibility_ranges :
    (∀ (now : Int) (meta : ExcelMeta) (workbook : List (String × Sheet)),
      metricsInRange (parseWorkbook now meta workbook).metrics) ∧
    (∀ (m : Metrics) (key : String) (v : ℚ) (ts : Option Int) (ord : Nat) (sh : String)
      (d : ParamDef), PARAMETER_META key = some d →
      ((∃ mn, d.min = some mn ∧ v < mn) ∨ (∃ mx, d.max = some mx ∧ mx < v)) →
      addNumericSample m key v ts ord sh = m) ∧
    ((PARAMETER_META "bloodPressureSys").map (fun d => (d.min, d.max)) =
      some (some 40, some 300) ∧
     (PARAMETER_META "bloodPressureDia").map (fun d => (d.min, d.max)) =
      some (some 20, some 200)) := by
  refine ⟨metricsInRange_parseWorkbook, ?_, by decide⟩
  intro m key v ts ord sh d hd hout
  unfold addNumericSample
  rw [hd]
  dsimp only
  rcases hout with ⟨mn, hmn, hv⟩ | ⟨mx, hmx, hv⟩
  · have hb : belowMin d v = true := by
      unfold belowMin
      rw [hmn]
      simpa using hv
    rw [if_pos hb]
  · by_cases hb : belowMin d v = true
    · rw [if_pos hb]
    · have ha : aboveMax d v = true := by
        unfold aboveMax
        rw [hmx]
        simpa using hv
      rw [if_neg hb, if_pos ha]

/-- Witness for C6: the invariant at a concrete parsed workbook, and a weight
of 500 kg (range `[20,400]`) leaving the metrics untouched. -/
theorem C6_plausibility_ranges_witness :
    metricsInRange (parseWorkbook 0 { name := some "a.xlsx", uploadedAt := some 0 }
      [("Blad1", [[Cell.cstr "Vikt", Cell.cstr "Datum"],
                  [Cell.cnum 70, Cell.cdate 86400000]])]).metrics ∧
    addNumericSample createEmptyMetrics "weight" 500 (some 0) 1 "S" =
      createEmptyMetrics := by
  constructor
  · exact C6_plausibility_ranges.1 0 { name := some "a.xlsx", uploadedAt := some 0 }
      [("Blad1", [[Cell.cstr "Vikt", Cell.cstr "Datum"],
                  [Cell.cnum 70, Cell.cdate 86400000]])]
  · exact C6_plausibility_ranges.2.1 createEmptyMetrics "weight" 500 (some 0) 1 "S"
      { key := "weight", label := "Vikt", unit := "kg", matchers := ["weight", "vikt", "kg"],
        min := some 20, max := some 400, timeline := true }
      (by decide) (Or.inr ⟨400, rfl, by norm_num⟩)

/-- C7 counterexample: the claim that a column with no role keyword and no
parameter match gets a date role inferred from its samples is false — the
header `abc` declares the default value role, a sampled cell below it parses
as a date, yet the classifier keeps role `value`. -/
theorem C7_role_inference_counterexample :
    detectDeclaredRole (normalizeText "abc") = some Role.value ∧
    matchParameter (normalizeText "abc") = none ∧
    (parseDateValue (Cell.cdate 0)).isSome = true ∧
    (describeColumns ["abc"] [[Cell.cstr "abc"], [Cell.cdate 0]] 0).map Descriptor.role =
      [Role.value] := by
  decide

theorem describeColumnsFrom_get (rows : Sheet) (hi : Nat) :
    ∀ (headers : List String) (n i : Nat),
      (describeColumnsFrom rows hi n headers).get? i =
        (headers.get? i).map (fun h => describeColumn rows hi (n + i) h) := by
  intro headers
  induction headers with
  | nil =>
    intro n i
    simp [describeColumnsFrom]
  | cons h rest ih =>
    intro n i
    cases i with
    | zero => simp [describeColumnsFrom]
    | succ i =>
      show (describeColumnsFrom rows hi (n + 1) rest).get? i = _
      rw [ih (n + 1) i]
      have harith : n + 1 + i = n + (i + 1) := by omega
      rw [harith]
      rfl

/-- C7 amended: the classifier samples up to 9 non-empty cells from the rows
following the header, but infers a date or time role from them only when the
normalized header is empty (so no role, not even the default `value`, was
declared); a column whose non-empty header contains no role keyword keeps the
default `value` role regardless of its samples.  When sample inference does
run, role `date` is assigned exactly when some sample parses as a date, and
`time` exactly when none parses as a date and some parses as a time. -/
theorem C7_role_inference_amended :
    (∀ (rows : Sheet) (hi : Nat) (headers : List String) (i : Nat) (h : String),
      headers.get? i = some h →
      (describeColumns headers rows hi).get? i = some (describeColumn rows hi i h)) ∧
    (∀ (rows : Sheet) (hi i : Nat) (h : String) (r : Role),
      detectDeclaredRole (normalizeText h) = some r →
      (describeColumn rows hi i h).role = r) ∧
    (∀ (rows : Sheet) (hi i : Nat) (h : String),
      detectDeclaredRole (normalizeText h) = none →
      (describeColumn rows hi i h).role = inferRoleFromSamples (sampleCells rows hi i)) ∧
    (∀ (rows : Sheet) (hi i : Nat), (sampleCells rows hi i).length ≤ 9) ∧
    (∀ samples : List Cell, inferRoleFromSamples samples = Role.date ↔
      ∃ c ∈ samples, (parseDateValue c).isSome = true) ∧
    (∀ samples : List Cell, inferRoleFromSamples samples = Role.time ↔
      ((∀ c ∈ samples, parseDateValue c = none) ∧
        ∃ c ∈ samples, (parseTimeValue c).isSome = true)) := by
  refine ⟨?_, ?_, ?_, ?_, ?_, ?_⟩
  · intro rows hi headers i h hh
    unfold describeColumns
    rw [describeColumnsFrom_get rows hi headers 0 i, hh]
    simp
  · intro rows hi i h r hr
    unfold describeColumn
    dsimp only
    rw [hr]
    by_cases hv : r = Role.value
    · subst hv
      rw [if_pos (Or.inr rfl)]
    · rw [if_neg ?hcond]
      case hcond =>
        rintro (hc | hc)
        · cases hc
        · exact hv (Option.some.inj hc)
      rfl
  · intro rows hi i h hr
    unfold describeColumn
    dsimp only
    rw [hr]
    rw [if_pos (Or.inl rfl)]
  · intro rows hi i
    unfold sampleCells
    have h1 := List.length_filter_le cellNonEmptyB
      (((rows.drop (hi + 1)).take 9).map (fun r => cellAt r i))
    have h2 : ((((rows.drop (hi + 1)).take 9)).map (fun r => cellAt r i)).length ≤ 9 := by
      rw [List.length_map]
      exact List.length_take_le _ _
    omega
  · intro samples
    constructor
    · intro hd
      by_cases h : samples.any (fun v => (parseDateValue v).isSome) = true
      · obtain ⟨c, hc, hp⟩ := List.any_eq_true.mp h
        exact ⟨c, hc, hp⟩
      · exfalso
        unfold inferRoleFromSamples at hd
        rw [if_neg h] at hd
        split at hd <;> cases hd
    · rintro ⟨c, hc, hp⟩
      unfold inferRoleFromSamples
      rw [if_pos (List.any_eq_true.mpr ⟨c, hc, hp⟩)]
  · intro samples
    constructor
    · intro ht
      unfold inferRoleFromSamples at ht
      by_cases h : samples.any (fun v => (parseDateValue v).isSome) = true
      · rw [if_pos h] at ht
        cases ht
      · rw [if_neg h] at ht
        by_cases h2 : samples.any (fun v => (parseTimeValue v).isSome) = true
        · refine ⟨?_, ?_⟩
          · intro c hc
            have hfalse := List.any_eq_false.mp (Bool.eq_false_iff.mpr h) c hc
            exact Option.not_isSome_iff_eq_none.mp (by simpa using hfalse)
          · obtain ⟨c, hc, hp⟩ := List.any_eq_true.mp h2
            exact ⟨c, hc, hp⟩
        · rw [if_neg h2] at ht
          cases ht
    · rintro ⟨hnone, c, hc, hp⟩
      unfold inferRoleFromSamples
      have h : samples.any (fun v => (parseDateValue v).isSome) = false := by
        rw [List.any_eq_false]
        intro x hx
        rw [hnone x hx]
        simp
      rw [if_neg (by rw [h]; simp), if_pos (List.any_eq_true.mpr ⟨c, hc, hp⟩)]

/-- Witness for C7 amended: a whitespace-only header (empty normalization)
gets role date inferred from a date sample; the keyword-free header `abc`
keeps role value; a date keyword header keeps role date. -/
theorem C7_role_inference_amended_witness :
    (describeColumns ["abc"] [[Cell.cstr "abc"], [Cell.cdate 0]] 0).get? 0 =
      some (describeColumn [[Cell.cstr "abc"], [Cell.cdate 0]] 0 0 "abc") ∧
    (describeColumn [[Cell.cstr "abc"], [Cell.cdate 0]] 0 0 "abc").role = Role.value ∧
    (describeColumn [[Cell.cstr "Datum"], [Cell.cdate 0]] 0 0 "Datum").role = Role.date ∧
    inferRoleFromSamples [Cell.cdate 0] = Role.date := by
  refine ⟨?_, ?_, ?_, ?_⟩
  · exact C7_role_inference_amended.1 [[Cell.cstr "abc"], [Cell.cdate 0]] 0 ["abc"] 0 "abc"
      rfl
  · exact C7_role_inference_amended.2.1 [[Cell.cstr "abc"], [Cell.cdate 0]] 0 0 "abc"
      Role.value (by decide)
  · exact C7_role_inference_amended.2.1 [[Cell.cstr "Datum"], [Cell.cdate 0]] 0 0 "Datum"
      Role.date (by decide)
  · exact (C7_role_inference_amended.2.2.2.2.1 [Cell.cdate 0]).mpr
      ⟨Cell.cdate 0, by simp, by decide⟩

/-- C8 counterexample: the claim that two runs on identical bytes and
metadata agree on everything but `parsedAt` is false — a workbook whose only
timestamp source is a time-of-day column makes `combineDateAndTime` fall back
to the current instant (`new Date()`), so runs on different days produce
different weight-trend timestamps. -/
theorem C8_determinism_counterexample :
    ¬ ({ parseWorkbook 0 { name := some "a.xlsx", uploadedAt := some 0 }
          [("Blad1", [[Cell.cstr "Vikt", Cell.cstr "Tid"],
                      [Cell.cnum 70, Cell.cstr "12:00"]])] with parsedAt := 0 } =
       { parseWorkbook 86400000 { name := some "a.xlsx", uploadedAt := some 0 }
          [("Blad1", [[Cell.cstr "Vikt", Cell.cstr "Tid"],
                      [Cell.cnum 70, Cell.cstr "12:00"]])] with parsedAt := 0 }) := by
  decide

/-- C8 amended: running the extraction twice on identical input bytes with
identical metadata produces identical output documents in every field except
`parsedAt`, provided the metadata supplies `uploadedAt` and no processed row
derives its timestamp from a time value without a date (the `new Date()`
current-date fallback). -/
theorem C8_determinism_amended (n1 n2 : Int) (meta : ExcelMeta)
    (workbook : List (String × Sheet)) (hu : meta.uploadedAt.isSome = true)
    (hw : workbookUsesNow workbook = false) :
    { parseWorkbook n1 meta workbook with parsedAt := 0 } =
      { parseWorkbook n2 meta workbook with parsedAt := 0 } := by
  obtain ⟨u, hu2⟩ := Option.isSome_iff_exists.mp hu
  have hagg := parseWorkbook_congr n1 n2 workbook hw
  unfold parseWorkbook
  rw [hagg, hu2]
  rfl

/-- Witness for C8 amended: a date-column workbook parsed at two different
instants yields the same document up to `parsedAt`. -/
theorem C8_determinism_amended_witness :
    ({ name := some "a.xlsx", uploadedAt := some 0 } : ExcelMeta).uploadedAt.isSome = true ∧
    workbookUsesNow [("Blad1", [[Cell.cstr "Vikt", Cell.cstr "Datum"],
      [Cell.cnum 70, Cell.cdate 86400000]])] = false ∧
    { parseWorkbook 0 { name := some "a.xlsx", uploadedAt := some 0 }
        [("Blad1", [[Cell.cstr "Vikt", Cell.cstr "Datum"],
          [Cell.cnum 70, Cell.cdate 86400000]])] with parsedAt := 0 } =
      { parseWorkbook 123456789 { name := some "a.xlsx", uploadedAt := some 0 }
          [("Blad1", [[Cell.cstr "Vikt", Cell.cstr "Datum"],
            [Cell.cnum 70, Cell.cdate 86400000]])] with parsedAt := 0 } := by
  refine ⟨rfl, by decide, ?_⟩
  exact C8_determinism_amended 0 123456789 { name := some "a.xlsx", uploadedAt := some 0 }
    [("Blad1", [[Cell.cstr "Vikt", Cell.cstr "Datum"], [Cell.cnum 70, Cell.cdate 86400000]])]
    rfl (by decide)

/-- C9: for every input workbook, regardless of sheet, column or label
counts, the `rawData` list of the returned result has at most
`MAX_RAW_ITEMS = 100` entries. -/
theorem C9_rawData_cap :
    MAX_RAW_ITEMS = 100 ∧
    ∀ (now : Int) (meta : ExcelMeta) (workbook : List (String × Sheet)),
      (parseWorkbook now meta workbook).rawData.length ≤ 100 := by
  refine ⟨rfl, ?_⟩
  intro now meta workbook
  show ((List.foldl _ createAggregation workbook).rawLabels.take MAX_RAW_ITEMS).length ≤ 100
  exact List.length_take_le MAX_RAW_ITEMS _

/-- C10: a blood-pressure row with a systolic value outside `[40,300]` or a
diastolic value outside `[20,200]` is discarded atomically — the metrics
(latest value and trends alike) are returned unchanged, even when the other
side lies within its own range. -/
theorem C10_bp_atomic_drop (m : Metrics) (rv : RowValues) (ts : Option Int) (ord : Nat)
    (sh : String)
    (hout : (∃ s, rv.systolic = some s ∧ (s < 40 ∨ s > 300)) ∨
      (∃ d0, rv.diastolic = some d0 ∧ (d0 < 20 ∨ d0 > 200))) :
    addBloodPressureSample m rv ts ord sh = m := by
  unfold addBloodPressureSample
  by_cases h1 : rv.systolic.any (fun s => decide (s < 40 ∨ s > 300)) = true
  · rw [if_pos h1]
  · rw [if_neg h1]
    have h2 : rv.diastolic.any (fun d => decide (d < 20 ∨ d > 200)) = true := by
      rcases hout with ⟨s, hs, hrange⟩ | ⟨d0, hd, hrange⟩
      · exfalso
        apply h1
        rw [hs]
        simpa using hrange
      · rw [hd]
        simpa using hrange
    rw [if_pos h2]

/-- Witness for C10: systolic 350 with an in-range diastolic 80 leaves the
metrics untouched. -/
theorem C10_bp_atomic_drop_witness :
    addBloodPressureSample createEmptyMetrics
      { systolic := some 350, diastolic := some 80, others := [] } (some 0) 1 "S" =
      createEmptyMetrics :=
  C10_bp_atomic_drop createEmptyMetrics
    { systolic := some 350, diastolic := some 80, others := [] } (some 0) 1 "S"
    (Or.inl ⟨350, rfl, Or.inr (by norm_num)⟩)
